import Mathlib

/-!
# Usage accounting and quota enforcement of the VPN management backend

A shallow embedding of the scheduler jobs of `src/scheduler.js`, the subscription
methods of `src/models/Subscription.js`, the node client of
`src/services/xrayClient.js` and the sync service of `src/services/syncService.js`.

Modelling conventions.
* JavaScript numbers that hold byte counters, limits and user counts are `Int`
  (the counters come out of `parseInt`, so they are integers; rounding above 2^53
  is outside the model).
* Mongoose arrays are `List`s; the array that is in memory when `save` is called is
  the array that is stored.
* Every call that leaves the process (node control calls, ledger writes) takes its
  outcome from a `World`, an oracle that is an input of a job run, and is recorded
  in a trace of `Effect`s.
* The data of the list call of a node is an `InboundData`: an array of users, as
  `syncService.js` reads it, or an object with the users under `users`, as
  `test-scheduler.js` reads it.
* Dates are milliseconds since the epoch; the current time and the time zone of the
  host are inputs.
-/

namespace Homt

/-! ## The period update (`src/scheduler.js`, lines 93-110) -/

/-- The period update of the traffic limits check: `trafficArray` is
`subscriptionDoc.trafficUsed`, `currentServerTraffic` is `stats.total`, and the
result is the value of `subscriptionDoc.trafficUsed` after the `if` chain. -/
def updateTrafficUsed (trafficArray : List Int) (currentServerTraffic : Int) : List Int :=
  let lastPeriodTraffic : Int :=
    if trafficArray.length > 0 then trafficArray.getD (trafficArray.length - 1) 0 else 0
  if trafficArray.length = 0 then
    [currentServerTraffic]
  else if currentServerTraffic < lastPeriodTraffic then
    trafficArray ++ [currentServerTraffic]
  else
    trafficArray.set (trafficArray.length - 1) currentServerTraffic

/-- The expression `trafficUsed.reduce((sum, val) => sum + val, 0)`. -/
def totalTrafficUsed (trafficUsed : List Int) : Int :=
  trafficUsed.foldl (fun sum val => sum + val) 0

/-- A poll sequence: the period update applied to the observations in order. -/
def applyObservations (periods : List Int) (observations : List Int) : List Int :=
  observations.foldl updateTrafficUsed periods

/-- Number of positions of a sequence whose entry is strictly less than the entry
immediately before it. -/
def strictDecreases : List Int → Nat
  | a :: b :: rest => (if b < a then 1 else 0) + strictDecreases (b :: rest)
  | _ => 0

/-! ## Data model (`src/models/Subscription.js`, `src/models/Server.js`) -/

/-- The `status` enum of the subscription schema. -/
inductive SubscriptionStatus where
  | active
  | depleted
  | expired
  | suspended
  deriving DecidableEq

/-- The `status` enum of the server schema. -/
inductive ServerStatus where
  | active
  | inactive
  | maintenance
  | offline
  deriving DecidableEq

/-- The owner of a subscription, as far as the jobs read it. -/
structure User where
  email : String
  deriving DecidableEq

/-- A node of the fleet (`Server` document). -/
structure Server where
  id : String
  status : ServerStatus
  currentUsers : Int
  lastChecked : Option Int
  deriving DecidableEq

/-- A `Subscription` document. `user` is what `populate("user")` resolves the owner
reference to (`none` when the owner document is gone); `currentServer` is the stored
reference to the assigned node. Dates are milliseconds. -/
structure Subscription where
  id : String
  user : Option User
  uuid : String
  trafficLimit : Int
  trafficUsed : List Int
  currentServer : Option String
  lastServerChange : Option Int
  status : SubscriptionStatus
  expiresAt : Option Int
  deriving DecidableEq

/-- The method `getTotalTrafficUsed` of the subscription schema. -/
def Subscription.getTotalTrafficUsed (self : Subscription) : Int :=
  self.trafficUsed.foldl (fun sum val => sum + val) 0

/-- The method `hasTrafficRemaining` of the subscription schema. -/
def Subscription.hasTrafficRemaining (self : Subscription) : Bool :=
  let totalUsed := self.trafficUsed.foldl (fun sum val => sum + val) 0
  decide (totalUsed < self.trafficLimit)

/-! ## The node client (`src/services/xrayClient.js`) -/

/-- What a call of the node SDK does: it rejects, or it resolves to a result object
with an `isOk` flag and optional `data`. -/
inductive SdkReply (α : Type) where
  | throws : SdkReply α
  | result (isOk : Bool) (data : Option α) : SdkReply α

/-- The `user` object of a statistics result after `parseInt`: `none` stands for
`NaN` (a missing or unparsable counter). -/
structure UserStat where
  uplink : Option Int
  downlink : Option Int

/-- The object returned by `queryUserStats`. -/
structure Stats where
  uplink : Int
  downlink : Int
  total : Int

/-- The method `queryUserStats`: a rejected call and a result that is not ok both
throw; otherwise each counter is `parseInt(..) || 0` and `total` is their sum. -/
def queryUserStats (reply : SdkReply UserStat) : Except Unit Stats :=
  match reply with
  | .throws => .error ()
  | .result isOk data =>
    if !isOk then .error ()
    else
      let userStats : UserStat := data.getD { uplink := none, downlink := none }
      .ok { uplink := userStats.uplink.getD 0
            downlink := userStats.downlink.getD 0
            total := userStats.uplink.getD 0 + userStats.downlink.getD 0 }

/-- The method `removeInboundUser`: a rejected call and a result that is not ok both
throw. -/
def removeInboundUser (reply : SdkReply Unit) : Except Unit Unit :=
  match reply with
  | .throws => .error ()
  | .result isOk _ => if !isOk then .error () else .ok ()

/-! ## Ledger, world and effects -/

/-- The two collections the jobs read and write. -/
structure Ledger where
  subscriptions : List Subscription
  servers : List Server
  deriving DecidableEq

/-- Outcomes of the calls that leave the process during one job run, indexed by the
id of the subscription that is being processed when the call is made. -/
structure World where
  getUserStats : String → SdkReply UserStat
  removeUser : String → SdkReply Unit
  serverWriteOk : String → Bool
  subscriptionSaveOk : String → Bool

/-- A call issued by a job, recorded whether or not it succeeds. Node calls carry
the node id and the id of the subscription whose label is passed. -/
inductive Effect where
  | queryUserStats (server subscription : String)
  | removeUser (server subscription : String)
  | serverWrite (server : String) (currentUsers : Int)
  | subscriptionSave (doc : Subscription)
  deriving DecidableEq

/-- The state of a running job: the ledger, the server objects that `populate`
attached to the snapshot (one shared object per server), the counter
`suspendedCount` and the calls issued so far. -/
structure JobState where
  ledger : Ledger
  populated : List Server
  suspendedCount : Nat
  effects : List Effect
  deriving DecidableEq

/-- `Subscription.findById`. -/
def Ledger.findSubscriptionById (l : Ledger) (id : String) : Option Subscription :=
  l.subscriptions.find? (fun s => s.id == id)

/-- A successful `save` of a subscription document: the stored document with the
same `_id` is replaced. -/
def Ledger.saveSubscription (l : Ledger) (doc : Subscription) : Ledger :=
  { l with subscriptions := l.subscriptions.map (fun s => if s.id == doc.id then doc else s) }

/-- Assignment to the `currentUsers` field of the server with the given id. -/
def setCurrentUsers (servers : List Server) (id : String) (n : Int) : List Server :=
  servers.map (fun s => if s.id == id then { s with currentUsers := n } else s)

/-- The object that `populate("currentServer")` puts in place of a reference. -/
def populate (servers : List Server) (ref : Option String) : Option Server :=
  ref.bind (fun id => servers.find? (fun s => s.id == id))

/-- The condition of the suspension branch, `totalTrafficUsed >= trafficLimit`. -/
def limitReached (trafficUsed : List Int) (trafficLimit : Int) : Bool :=
  decide (totalTrafficUsed trafficUsed ≥ trafficLimit)

/-- The expression `Math.max(0, currentUsers - 1)`. -/
def decrementUsers (currentUsers : Int) : Int :=
  max 0 (currentUsers - 1)

/-- The call `subscriptionDoc.save(..)` that ends an iteration of the traffic limits
check; a failing save is caught by the `catch` of the iteration. -/
def saveSubscriptionDoc (w : World) (st : JobState) (doc : Subscription) : JobState :=
  let st := { st with effects := st.effects ++ [Effect.subscriptionSave doc] }
  if w.subscriptionSaveOk doc.id then { st with ledger := st.ledger.saveSubscription doc }
  else st

/-! ## The traffic limits check (`src/scheduler.js`, lines 71-141) -/

/-- One iteration of the loop over the snapshot (lines 79-135). `subscription` is
the snapshot entry; its assigned node is looked up among the populated objects. -/
def trafficLimitsCheckStep (w : World) (st : JobState) (subscription : Subscription) :
    JobState :=
  match populate st.populated subscription.currentServer with
  | none => st
  | some currentServer =>
    match st.ledger.findSubscriptionById subscription.id with
    | none => st
    | some subscriptionDoc =>
      if subscriptionDoc.user.isNone then st
      else
        let st := { st with
          effects := st.effects ++ [Effect.queryUserStats currentServer.id subscription.id] }
        match queryUserStats (w.getUserStats subscription.id) with
        | .error _ => st
        | .ok stats =>
          let trafficUsed := updateTrafficUsed subscriptionDoc.trafficUsed stats.total
          if limitReached trafficUsed subscriptionDoc.trafficLimit then
            let st := { st with
              effects := st.effects ++ [Effect.removeUser currentServer.id subscription.id] }
            match removeInboundUser (w.removeUser subscription.id) with
            | .error _ => st
            | .ok _ =>
              let currentUsers := decrementUsers currentServer.currentUsers
              let st := { st with
                populated := setCurrentUsers st.populated currentServer.id currentUsers
                effects := st.effects ++ [Effect.serverWrite currentServer.id currentUsers] }
              if w.serverWriteOk subscription.id then
                let st := { st with
                  ledger := { st.ledger with
                    servers := setCurrentUsers st.ledger.servers currentServer.id currentUsers }
                  suspendedCount := st.suspendedCount + 1 }
                saveSubscriptionDoc w st { subscriptionDoc with
                  trafficUsed := trafficUsed
                  status := SubscriptionStatus.suspended
                  currentServer := none }
              else st
          else
            saveSubscriptionDoc w st { subscriptionDoc with trafficUsed := trafficUsed }

/-- The state in which a job starts on a ledger. -/
def JobState.start (ledger : Ledger) : JobState :=
  { ledger := ledger, populated := ledger.servers, suspendedCount := 0, effects := [] }

/-- One run of the traffic limits check: the snapshot is the active subscriptions. -/
def trafficLimitsCheck (w : World) (ledger : Ledger) : JobState :=
  let subscriptions := ledger.subscriptions.filter (fun s => s.status == SubscriptionStatus.active)
  subscriptions.foldl (trafficLimitsCheckStep w) (JobState.start ledger)

/-- Successive runs of the traffic limits check, one world per run; the result is
the final ledger and the calls of each run. -/
def trafficLimitsCheckRuns : List World → Ledger → Ledger × List (List Effect)
  | [], ledger => (ledger, [])
  | w :: ws, ledger =>
    let st := trafficLimitsCheck w ledger
    let rest := trafficLimitsCheckRuns ws st.ledger
    (rest.1, st.effects :: rest.2)

/-! ## The expired subscriptions check (`src/scheduler.js`, lines 32-69) -/

/-- One iteration of the loop of the hourly sweep (lines 43-63). `Except.error`
carries the state at the point where an exception leaves the loop and reaches the
outer `catch`. -/
def expiredSubscriptionsCheckStep (w : World) (st : JobState) (subscription : Subscription) :
    Except JobState JobState :=
  let afterRemoval : Except JobState JobState :=
    match populate st.populated subscription.currentServer with
    | none => .ok st
    | some currentServer =>
      match subscription.user with
      | none => .error st
      | some _ =>
        let st := { st with
          effects := st.effects ++ [Effect.removeUser currentServer.id subscription.id] }
        match removeInboundUser (w.removeUser subscription.id) with
        | .error _ => .ok st
        | .ok _ =>
          let currentUsers := decrementUsers currentServer.currentUsers
          let st := { st with
            populated := setCurrentUsers st.populated currentServer.id currentUsers
            effects := st.effects ++ [Effect.serverWrite currentServer.id currentUsers] }
          if w.serverWriteOk subscription.id then
            .ok { st with
              ledger := { st.ledger with
                servers := setCurrentUsers st.ledger.servers currentServer.id currentUsers } }
          else .ok st
  match afterRemoval with
  | .error st => .error st
  | .ok st =>
    let doc : Subscription := { subscription with
      status := SubscriptionStatus.expired
      currentServer := none }
    let st := { st with effects := st.effects ++ [Effect.subscriptionSave doc] }
    if w.subscriptionSaveOk subscription.id then
      let st := { st with ledger := st.ledger.saveSubscription doc }
      match subscription.user with
      | none => .error st
      | some _ => .ok st
    else .error st

/-- The loop of the hourly sweep: an exception that leaves an iteration ends it. -/
def expiredSubscriptionsLoop (w : World) : List Subscription → JobState → JobState
  | [], st => st
  | subscription :: rest, st =>
    match expiredSubscriptionsCheckStep w st subscription with
    | .error st => st
    | .ok st => expiredSubscriptionsLoop w rest st

/-- One run of the hourly sweep at time `now`. -/
def expiredSubscriptionsCheck (w : World) (now : Int) (ledger : Ledger) : JobState :=
  let expiredSubscriptions := ledger.subscriptions.filter (fun s =>
    s.status == SubscriptionStatus.active &&
      (match s.expiresAt with
       | some t => decide (t ≤ now)
       | none => false))
  expiredSubscriptionsLoop w expiredSubscriptions (JobState.start ledger)

/-- The state an iteration of the hourly sweep ends in, thrown or not. -/
def stateOf (r : Except JobState JobState) : JobState :=
  match r with
  | .error st => st
  | .ok st => st

/-- Whether an effect is a node control call made for the subscription `id`. -/
def Effect.isNodeCallFor (e : Effect) (id : String) : Bool :=
  match e with
  | .queryUserStats _ s => s == id
  | .removeUser _ s => s == id
  | .serverWrite _ _ => false
  | .subscriptionSave _ => false

/-! ## A concrete quota scenario -/

/-- A subscription with quota 1000 and no period yet, assigned to node `n1`. -/
def quotaSub : Subscription :=
  { id := "s1", user := some { email := "a@b.c" }, uuid := "u1", trafficLimit := 1000,
    trafficUsed := [], currentServer := some "n1", lastServerChange := none,
    status := SubscriptionStatus.active, expiresAt := none }

/-- The node `n1`, with one provisioned identity. -/
def quotaNode : Server :=
  { id := "n1", status := ServerStatus.active, currentUsers := 1, lastChecked := none }

/-- A ledger holding `quotaSub` and its node. -/
def quotaLedger : Ledger :=
  { subscriptions := [quotaSub], servers := [quotaNode] }

/-- A world in which the node reports the cumulative counter `v` and every call
succeeds. -/
def observing (v : Int) : World :=
  { getUserStats := fun _ => SdkReply.result true (some { uplink := some v, downlink := none })
    removeUser := fun _ => SdkReply.result true none
    serverWriteOk := fun _ => true
    subscriptionSaveOk := fun _ => true }

/-- The ledger after the polls 400, 900, 150 of the scenario. -/
def quotaLedgerAfterCrossing : Ledger :=
  (trafficLimitsCheckRuns [observing 400, observing 900, observing 150] quotaLedger).1

/-! ## The remaining scheduler jobs on subscriptions (`src/scheduler.js`) -/

/-- Successive runs of the hourly sweep, each with its world and its time `now`; the
result is the final ledger and the calls of each run. -/
def expiredSubscriptionsCheckRuns : List (World × Int) → Ledger → Ledger × List (List Effect)
  | [], ledger => (ledger, [])
  | (w, now) :: rest, ledger =>
    let st := expiredSubscriptionsCheck w now ledger
    let tail := expiredSubscriptionsCheckRuns rest st.ledger
    (tail.1, st.effects :: tail.2)

/-- The loop of the daily subscription status update (lines 191-196): the status is
set to expired and the document saved; a failing save leaves the loop through the
outer `catch`. -/
def subscriptionStatusUpdateLoop (w : World) : List Subscription → JobState → JobState
  | [], st => st
  | subscription :: rest, st =>
    let doc : Subscription := { subscription with status := SubscriptionStatus.expired }
    let st := { st with effects := st.effects ++ [Effect.subscriptionSave doc] }
    if w.subscriptionSaveOk subscription.id then
      subscriptionStatusUpdateLoop w rest { st with ledger := st.ledger.saveSubscription doc }
    else st

/-- One run of the daily subscription status update at time `now` (lines 182-202). -/
def subscriptionStatusUpdate (w : World) (now : Int) (ledger : Ledger) : JobState :=
  let expiredSubscriptions := ledger.subscriptions.filter (fun s =>
    s.status == SubscriptionStatus.active &&
      (match s.expiresAt with
       | some t => decide (t ≤ now)
       | none => false))
  subscriptionStatusUpdateLoop w expiredSubscriptions (JobState.start ledger)

/-- The period update as written in the statistics resync (lines 221-234). -/
def statsSyncTrafficUsed (trafficArray : List Int) (currentServerTraffic : Int) : List Int :=
  let lastPeriodTraffic : Int :=
    if trafficArray.length > 0 then trafficArray.getD (trafficArray.length - 1) 0 else 0
  if trafficArray.length = 0 then
    [currentServerTraffic]
  else if currentServerTraffic < lastPeriodTraffic then
    trafficArray ++ [currentServerTraffic]
  else
    trafficArray.set (trafficArray.length - 1) currentServerTraffic

/-- One iteration of the statistics resync (lines 210-240). -/
def statsSyncStep (w : World) (st : JobState) (subscription : Subscription) : JobState :=
  match populate st.populated subscription.currentServer with
  | none => st
  | some currentServer =>
    match st.ledger.findSubscriptionById subscription.id with
    | none => st
    | some subscriptionDoc =>
      if subscriptionDoc.user.isNone then st
      else
        let st := { st with
          effects := st.effects ++ [Effect.queryUserStats currentServer.id subscription.id] }
        match queryUserStats (w.getUserStats subscription.id) with
        | .error _ => st
        | .ok stats =>
          saveSubscriptionDoc w st { subscriptionDoc with
            trafficUsed := statsSyncTrafficUsed subscriptionDoc.trafficUsed stats.total }

/-- One run of the statistics resync (lines 204-246). -/
def statsSync (w : World) (ledger : Ledger) : JobState :=
  let subscriptions := ledger.subscriptions.filter (fun s => s.status == SubscriptionStatus.active)
  subscriptions.foldl (statsSyncStep w) (JobState.start ledger)

/-- The subscription invariant: an assigned node implies status active. -/
def Subscription.nodeImpliesActive (self : Subscription) : Bool :=
  self.currentServer.isNone || self.status == SubscriptionStatus.active

/-! ## Reconciliation (`src/services/syncService.js`, `src/services/xrayClient.js`) -/

/-- The call `split("@")` on the characters of a string: the parts between the
occurrences of `@`, of which there is always at least one. -/
def splitAtSign : List Char → List (List Char)
  | [] => [[]]
  | c :: cs =>
    if c = '@' then [] :: splitAtSign cs
    else
      match splitAtSign cs with
      | [] => [[c]]
      | part :: parts => (c :: part) :: parts

/-- The method `getXrayEmail` of the subscription schema; reading the email of a
missing owner throws. A missing part of the split email prints as `undefined`. -/
def Subscription.getXrayEmail (self : Subscription) : Except Unit String :=
  match self.user with
  | none => .error ()
  | some user =>
    let subId := self.id.take 8
    let parts := (splitAtSign user.email.data).map String.mk
    .ok (parts.getD 0 "undefined" ++ "_" ++ subId ++ "@" ++ parts.getD 1 "undefined")

/-- An entry of the user list a node reports for an inbound. -/
structure InboundUser where
  uuid : Option String
  id : Option String
  deriving DecidableEq

/-- The expression `u.uuid || u.id`. -/
def InboundUser.token (u : InboundUser) : Option String :=
  match u.uuid with
  | some x => if x = "" then u.id else some x
  | none => u.id

/-- The value `result.data` of the list call of the SDK. The repository does not fix
its shape: `syncService.js` reads it as an array of users (`.length`, `.map`), while
`test-scheduler.js` (lines 248-249) reads the users under the property `users` of an
object. -/
inductive InboundData where
  | array (users : List InboundUser)
  | object (users : List InboundUser)
  deriving DecidableEq

/-- The method `getInboundUsers`: it never throws; a rejected call and a result that
is not ok give the empty array, otherwise `result.data || []`, in which an array and
an object are both truthy and returned as they are. -/
def getInboundUsers (reply : SdkReply InboundData) : InboundData :=
  match reply with
  | .throws => InboundData.array []
  | .result isOk data => if !isOk then InboundData.array [] else data.getD (InboundData.array [])

/-- The set `existingUUIDs` of the sync methods (`syncService.js` lines 49-50, 111-112
and 199-200), `existingUsers.length > 0 ? existingUsers.map((u) => u.uuid || u.id) : []`,
as a list: an object has no `length`, the comparison `undefined > 0` is false and the
set is empty. -/
def existingUUIDs (existingUsers : InboundData) : List (Option String) :=
  match existingUsers with
  | .array users => if users.length > 0 then users.map InboundUser.token else []
  | .object _ => []

/-- The constant `xrayUUIDs` of `cleanupServer` (line 145),
`(xrayUsers || []).map((u) => u.uuid || u.id)`: an object is truthy and has no method
`map`, so that the expression throws a `TypeError`. -/
def xrayUUIDs (xrayUsers : InboundData) : Except Unit (List (Option String)) :=
  match xrayUsers with
  | .array users => .ok (users.map InboundUser.token)
  | .object _ => .error ()

/-- The method `addVlessUser`: a rejected call and a result that is not ok both
throw. -/
def addVlessUser (reply : SdkReply Unit) : Except Unit Unit :=
  match reply with
  | .throws => .error ()
  | .result isOk _ => if !isOk then .error () else .ok ()

/-- Outcomes of the node control calls of the sync service: the list call by node
id, the add call by node id and subscription id, the removal call by node id and the
label passed as email. -/
structure NodeWorld where
  getInboundUsers : String → SdkReply InboundData
  addUser : String → String → SdkReply Unit
  removeUser : String → Option String → SdkReply Unit

/-- A node control call issued by the sync service, recorded whether or not it
succeeds. -/
inductive NodeCall where
  | getInboundUsers (server : String)
  | addVlessUser (server subscription uuid : String)
  | removeInboundUser (server : String) (email : Option String)
  deriving DecidableEq

/-- The counters `synced` and `failed` and the calls issued so far. -/
structure SyncState where
  synced : Nat
  failed : Nat
  calls : List NodeCall
  deriving DecidableEq

/-- The body of the loop over the subscriptions of one node, the same in
`syncAllUsers` (lines 52-73) and in `syncServer` (lines 205-224). -/
def syncSubscriptionStep (w : NodeWorld) (server : String) (existingUUIDs : List (Option String))
    (st : SyncState) (subscription : Subscription) : SyncState :=
  if some subscription.uuid ∈ existingUUIDs then
    { st with synced := st.synced + 1 }
  else
    match subscription.getXrayEmail with
    | .error _ => { st with failed := st.failed + 1 }
    | .ok _ =>
      let st := { st with
        calls := st.calls ++ [NodeCall.addVlessUser server subscription.id subscription.uuid] }
      match addVlessUser (w.addUser server subscription.id) with
      | .error _ => { st with failed := st.failed + 1 }
      | .ok _ => { st with synced := st.synced + 1 }

/-- The object returned by `syncServer`. -/
structure SyncServerResult where
  synced : Nat
  failed : Nat
  total : Nat
  calls : List NodeCall
  deriving DecidableEq

/-- The method `syncServer`; `server` is the result of `Server.findOne` for the
given name. -/
def syncServer (w : NodeWorld) (ledger : Ledger) (server : Option Server) :
    Except Unit SyncServerResult :=
  match server with
  | none => .error ()
  | some server =>
    let subscriptions := ledger.subscriptions.filter (fun s =>
      s.status == SubscriptionStatus.active && s.currentServer == some server.id)
    let existingUsers := getInboundUsers (w.getInboundUsers server.id)
    let st := subscriptions.foldl
      (syncSubscriptionStep w server.id (existingUUIDs existingUsers))
      { synced := 0, failed := 0, calls := [NodeCall.getInboundUsers server.id] }
    .ok { synced := st.synced, failed := st.failed, total := subscriptions.length,
          calls := st.calls }

/-- The statement `serverSubscriptionsMap[serverId].push(subscription)`, creating the
entry when the key is new; entries keep the order in which their keys first appear. -/
def pushSubscription (map : List (String × List Subscription)) (serverId : String)
    (subscription : Subscription) : List (String × List Subscription) :=
  match map with
  | [] => [(serverId, [subscription])]
  | entry :: rest =>
    if entry.1 == serverId then (entry.1, entry.2 ++ [subscription]) :: rest
    else entry :: pushSubscription rest serverId subscription

/-- The subscriptions `syncAllUsers` selects, each with its populated node; a
subscription whose node document is gone is skipped. -/
def syncCandidates (ledger : Ledger) : List (Server × Subscription) :=
  (ledger.subscriptions.filter (fun s =>
    s.status == SubscriptionStatus.active && s.currentServer.isSome)).filterMap
    (fun s => (populate ledger.servers s.currentServer).map (fun server => (server, s)))

/-- The object `serverSubscriptionsMap` of `syncAllUsers` (lines 24-35). -/
def serverSubscriptionsMap (ledger : Ledger) : List (String × List Subscription) :=
  (syncCandidates ledger).foldl (fun map c => pushSubscription map c.1.id c.2) []

/-- One iteration of the loop over the nodes in `syncAllUsers` (lines 40-78). -/
def syncNode (w : NodeWorld) (st : SyncState) (entry : String × List Subscription) :
    SyncState :=
  let st := { st with calls := st.calls ++ [NodeCall.getInboundUsers entry.1] }
  let existingUsers := getInboundUsers (w.getInboundUsers entry.1)
  entry.2.foldl (syncSubscriptionStep w entry.1 (existingUUIDs existingUsers)) st

/-- The method `syncAllUsers`. -/
def syncAllUsers (w : NodeWorld) (ledger : Ledger) : SyncState :=
  (serverSubscriptionsMap ledger).foldl (syncNode w) { synced := 0, failed := 0, calls := [] }

/-- The entries of `uuidToEmailMap` in `cleanupServer` (line 153); it throws when
`getXrayEmail` does. -/
def uuidToEmailEntries : List Subscription → Except Unit (List (String × String))
  | [] => .ok []
  | s :: rest =>
    match s.getXrayEmail with
    | .error e => .error e
    | .ok email =>
      match uuidToEmailEntries rest with
      | .error e => .error e
      | .ok entries => .ok ((s.uuid, email) :: entries)

/-- The call `uuidToEmailMap.get(uuid)`: of several entries with one key the last
one counts. -/
def uuidToEmailGet (entries : List (String × String)) (uuid : Option String) : Option String :=
  match uuid with
  | none => none
  | some u => (entries.reverse.find? (fun entry => entry.1 == u)).map (fun entry => entry.2)

/-- The expression `uuidToEmailMap.get(uuid) || uuid`, the label passed to the
removal call. -/
def removalEmail (entries : List (String × String)) (uuid : Option String) : Option String :=
  match uuidToEmailGet entries uuid with
  | some e => if e = "" then uuid else some e
  | none => uuid

/-- The counter `removed` and the calls issued so far. -/
structure CleanupState where
  removed : Nat
  calls : List NodeCall
  deriving DecidableEq

/-- One iteration of the loop over the reported tokens in `cleanupServer`
(lines 156-168). -/
def cleanupStep (w : NodeWorld) (server : String) (dbUUIDs : List String)
    (entries : List (String × String)) (st : CleanupState) (uuid : Option String) :
    CleanupState :=
  if uuid ∈ dbUUIDs.map some then st
  else
    let email := removalEmail entries uuid
    let st := { st with calls := st.calls ++ [NodeCall.removeInboundUser server email] }
    match removeInboundUser (w.removeUser server email) with
    | .error _ => st
    | .ok _ => { st with removed := st.removed + 1 }

/-- The result `dbSubscriptions` of the query of `cleanupServer` (lines 147-150): the
active subscriptions assigned to the node. -/
def dbSubscriptions (ledger : Ledger) (serverId : String) : List Subscription :=
  ledger.subscriptions.filter (fun s =>
    s.currentServer == some serverId && s.status == SubscriptionStatus.active)

/-- The set `dbUUIDs` of `cleanupServer` (line 151), as a list: the uuids of the
active subscriptions assigned to the node. -/
def activeUUIDs (ledger : Ledger) (serverId : String) : List String :=
  (dbSubscriptions ledger serverId).map (fun s => s.uuid)

/-- The method `cleanupServer`. An exception leaves the method through the outer
`catch`, which rethrows it; the error value holds the node calls issued before it:
none when the node is not found, the list call when line 145 or `getXrayEmail`
throws. -/
def cleanupServer (w : NodeWorld) (ledger : Ledger) (serverId : String) :
    Except (List NodeCall) CleanupState :=
  match ledger.servers.find? (fun s => s.id == serverId) with
  | none => .error []
  | some server =>
    let xrayUsers := getInboundUsers (w.getInboundUsers server.id)
    match xrayUUIDs xrayUsers with
    | .error _ => .error [NodeCall.getInboundUsers server.id]
    | .ok xrayUUIDs =>
      let dbUUIDs := activeUUIDs ledger serverId
      match uuidToEmailEntries (dbSubscriptions ledger serverId) with
      | .error _ => .error [NodeCall.getInboundUsers server.id]
      | .ok entries =>
        .ok (xrayUUIDs.foldl (cleanupStep w server.id dbUUIDs entries)
          { removed := 0, calls := [NodeCall.getInboundUsers server.id] })

/-- The members of the set `existingUUIDs` that the sync methods build from the reply
of a node. -/
def reportedTokens (w : NodeWorld) (server : String) : List (Option String) :=
  existingUUIDs (getInboundUsers (w.getInboundUsers server))

/-- Whether a node control call fails: the SDK call rejects or resolves to a result
that is not ok. -/
def SdkReply.fails {α : Type} (reply : SdkReply α) : Bool :=
  match reply with
  | .throws => true
  | .result isOk _ => !isOk

/-- Number of subscriptions held by the entries of the node map whose node satisfies
`p`. -/
def countOnNodes (p : String → Bool) (map : List (String × List Subscription)) : Nat :=
  (map.map (fun entry => if p entry.1 then entry.2.length else 0)).sum

/-! ## The node client as a fallible call, the health check and the cooldown -/

/-- The `try` block of the method `getInboundUsers` (`src/services/xrayClient.js`,
lines 143-151): the awaited SDK call may reject. -/
def getInboundUsersAttempt (reply : SdkReply InboundData) :
    Except Unit InboundData :=
  match reply with
  | .throws => .error ()
  | .result isOk data =>
    if !isOk then .ok (InboundData.array []) else .ok (data.getD (InboundData.array []))

/-- The method `getInboundUsers` with its `catch` block (lines 152-155), as a call
that could raise. -/
def getInboundUsersOutcome (reply : SdkReply InboundData) :
    Except Unit InboundData :=
  match getInboundUsersAttempt reply with
  | .error _ => .ok (InboundData.array [])
  | .ok users => .ok users

/-- Outcomes of the calls that leave the process during one health check, by node
id: the list call, the save at the end of the `try` block and the save in the
`catch` block. -/
structure HealthWorld where
  getInboundUsers : String → SdkReply InboundData
  saveOk : String → Bool
  catchSaveOk : String → Bool

/-- The state of a running health check: the stored nodes and the two counters. -/
structure HealthState where
  servers : List Server
  healthyCount : Nat
  unhealthyCount : Nat
  deriving DecidableEq

/-- A successful `server.save(..)`: the stored node with the same `_id` is replaced. -/
def saveServer (servers : List Server) (server : Server) : List Server :=
  servers.map (fun s => if s.id == server.id then server else s)

/-- The `catch` block of an iteration of the health check (`src/scheduler.js`,
lines 164-173), entered with the node object as the `try` block left it; a failing
save leaves the loop through the outer `catch`. -/
def healthCheckCatch (w : HealthWorld) (now : Int) (st : HealthState) (server : Server) :
    Except HealthState HealthState :=
  let server : Server :=
    if server.status != ServerStatus.offline then { server with status := ServerStatus.offline }
    else server
  let server : Server := { server with lastChecked := some now }
  if w.catchSaveOk server.id then
    .ok { st with servers := saveServer st.servers server
                  unhealthyCount := st.unhealthyCount + 1 }
  else .error st

/-- One iteration of the health check (lines 151-174) at time `now`. -/
def healthCheckStep (w : HealthWorld) (now : Int) (st : HealthState) (server : Server) :
    Except HealthState HealthState :=
  match getInboundUsersOutcome (w.getInboundUsers server.id) with
  | .error _ => healthCheckCatch w now st server
  | .ok _ =>
    let server : Server :=
      if server.status != ServerStatus.active then { server with status := ServerStatus.active }
      else server
    let server : Server := { server with lastChecked := some now }
    if w.saveOk server.id then
      .ok { st with servers := saveServer st.servers server
                    healthyCount := st.healthyCount + 1 }
    else healthCheckCatch w now st server

/-- The loop of the health check: an exception that leaves an iteration ends it. -/
def healthCheckLoop (w : HealthWorld) (now : Int) : List Server → HealthState → HealthState
  | [], st => st
  | server :: rest, st =>
    match healthCheckStep w now st server with
    | .error st => st
    | .ok st => healthCheckLoop w now rest st

/-- One run of the health check over all stored nodes (lines 143-180). -/
def healthCheck (w : HealthWorld) (now : Int) (servers : List Server) : HealthState :=
  healthCheckLoop w now servers { servers := servers, healthyCount := 0, unhealthyCount := 0 }

/-- The time zone of the host, as local date arithmetic reads it: the offset of local
time from UTC at a UTC instant, and the offset that applies to a local time value. -/
structure TimeZone where
  offsetAt : Int → Int
  offsetAtLocal : Int → Int

/-- The value of `oneDayAgo` in `canChangeServer` (`src/models/Subscription.js`,
lines 81-82): `setDate(getDate() - 1)` moves the local time back by one calendar day,
which is 86400000 ms on the local time scale, and converts back to UTC. -/
def oneDayAgo (tz : TimeZone) (now : Int) : Int :=
  let localTime := now + tz.offsetAt now
  let newLocal := localTime - 86400000
  newLocal - tz.offsetAtLocal newLocal

/-- The method `canChangeServer` of the subscription schema at time `now`. -/
def Subscription.canChangeServer (self : Subscription) (tz : TimeZone) (now : Int) : Bool :=
  match self.lastServerChange with
  | none => true
  | some lastServerChange => decide (lastServerChange < oneDayAgo tz now)

/-! ## Concrete expiry and fleet scenarios -/

/-- An active subscription assigned to node `n1` whose expiry time 0 has passed. -/
def dueSub (id uuid : String) : Subscription :=
  { id := id, user := some { email := "a@b.c" }, uuid := uuid, trafficLimit := 1000,
    trafficUsed := [], currentServer := some "n1", lastServerChange := none,
    status := SubscriptionStatus.active, expiresAt := some 0 }

/-- A ledger with two due subscriptions on node `n1`. -/
def dueLedger : Ledger :=
  { subscriptions := [dueSub "d1" "u1", dueSub "d2" "u2"], servers := [quotaNode] }

/-- A world in which every call succeeds except the save of subscription `d1`. -/
def saveOfFirstFails : World :=
  { getUserStats := fun _ => SdkReply.result true none
    removeUser := fun _ => SdkReply.result true none
    serverWriteOk := fun _ => true
    subscriptionSaveOk := fun id => id != "d1" }

/-- A node with the given id. -/
def fleetNode (id : String) : Server :=
  { id := id, status := ServerStatus.active, currentUsers := 0, lastChecked := none }

/-- An active subscription assigned to the given node. -/
def fleetSub (id uuid server : String) : Subscription :=
  { id := id, user := some { email := "a@b.c" }, uuid := uuid, trafficLimit := 1000,
    trafficUsed := [], currentServer := some server, lastServerChange := none,
    status := SubscriptionStatus.active, expiresAt := none }

/-- Five active subscriptions spread over the nodes `n1`, `n2`, `n3`. -/
def fleetLedger : Ledger :=
  { subscriptions := [fleetSub "a1" "ua1" "n1", fleetSub "b1" "ub1" "n2",
      fleetSub "a2" "ua2" "n1", fleetSub "c1" "uc1" "n3", fleetSub "b2" "ub2" "n2"],
    servers := [fleetNode "n1", fleetNode "n2", fleetNode "n3"] }

/-- A world in which every control call to node `n2` is rejected, node `n1` answers
the list call with an object that holds the identity `ua1`, node `n3` with an object
that holds none, and adds and removals on `n1` and `n3` succeed. -/
def node2Down : NodeWorld :=
  { getInboundUsers := fun n =>
      if n == "n2" then SdkReply.throws
      else if n == "n1" then
        SdkReply.result true (some (InboundData.object [{ uuid := some "ua1", id := none }]))
      else SdkReply.result true (some (InboundData.object []))
    addUser := fun n _ => if n == "n2" then SdkReply.throws else SdkReply.result true none
    removeUser := fun n _ => if n == "n2" then SdkReply.throws else SdkReply.result true none }

/-- The identities of the five subscriptions of the fleet. -/
def fleetUsers : List InboundUser :=
  [{ uuid := some "ua1", id := none }, { uuid := some "ub1", id := none },
   { uuid := some "ua2", id := none }, { uuid := some "uc1", id := none },
   { uuid := some "ub2", id := none }]

/-- A world in which every node answers the list call with an object that holds the
identities of all five subscriptions of the fleet, and every call succeeds. -/
def allReported : NodeWorld :=
  { getInboundUsers := fun _ => SdkReply.result true (some (InboundData.object fleetUsers))
    addUser := fun _ _ => SdkReply.result true none
    removeUser := fun _ _ => SdkReply.result true none }

/-- The world `allReported` with the add requests answered by a result that is not
ok, as a node answers for an identity it already has. -/
def allReportedAddRefused : NodeWorld :=
  { allReported with addUser := fun _ _ => SdkReply.result false none }

/-- The world `allReported` with the same identities answered as an array. -/
def allReportedAsArray : NodeWorld :=
  { allReported with
    getInboundUsers := fun _ => SdkReply.result true (some (InboundData.array fleetUsers)) }

/-- A world in which every node answers the list call with an object that holds the
identity `ua1` only, and every call succeeds. -/
def firstReported : NodeWorld :=
  { getInboundUsers := fun _ =>
      SdkReply.result true (some (InboundData.object [{ uuid := some "ua1", id := none }]))
    addUser := fun _ _ => SdkReply.result true none
    removeUser := fun _ _ => SdkReply.result true none }

/-- The world `firstReported` with the same identity answered as an array. -/
def firstReportedAsArray : NodeWorld :=
  { firstReported with
    getInboundUsers := fun _ =>
      SdkReply.result true (some (InboundData.array [{ uuid := some "ua1", id := none }])) }

/-- A world in which the nodes answer the list call with an object that holds no
identity and answer every add request with a result that is not ok. -/
def addConflicts : NodeWorld :=
  { getInboundUsers := fun _ => SdkReply.result true (some (InboundData.object []))
    addUser := fun _ _ => SdkReply.result false none
    removeUser := fun _ _ => SdkReply.result true none }

/-- The unknown identity `ux` followed by the identities `ua2` and `ua1`. -/
def orphanUsers : List InboundUser :=
  [{ uuid := some "ux", id := none }, { uuid := some "ua2", id := none },
   { uuid := some "ua1", id := none }]

/-- A world in which node `n1` answers the list call with an object that holds the
unknown identity `ux` and then the identities `ua2` and `ua1`, and every call
succeeds. -/
def reportsOrphan : NodeWorld :=
  { getInboundUsers := fun _ => SdkReply.result true (some (InboundData.object orphanUsers))
    addUser := fun _ _ => SdkReply.result true none
    removeUser := fun _ _ => SdkReply.result true none }

/-- The world `reportsOrphan` with the same identities answered as an array. -/
def reportsOrphanAsArray : NodeWorld :=
  { reportsOrphan with
    getInboundUsers := fun _ => SdkReply.result true (some (InboundData.array orphanUsers)) }

/-- A ledger in which node `n1` has the active subscription `a1` and the expired
subscription `e1`, both still assigned to it. -/
def staleLedger : Ledger :=
  { subscriptions := [fleetSub "a1" "ua1" "n1",
      { fleetSub "e1" "ue1" "n1" with status := SubscriptionStatus.expired }],
    servers := [fleetNode "n1"] }

/-- A world in which node `n1` answers the list call with an array that holds the
identities `ua1` and `ue1`, and every call succeeds. -/
def reportsStale : NodeWorld :=
  { getInboundUsers := fun _ => SdkReply.result true (some (InboundData.array
      [{ uuid := some "ua1", id := none }, { uuid := some "ue1", id := none }]))
    addUser := fun _ _ => SdkReply.result true none
    removeUser := fun _ _ => SdkReply.result true none }

/-- A world in which the node reports the counter `v` and rejects the removal call;
the ledger writes succeed. -/
def removalRaises (v : Int) : World :=
  { getUserStats := fun _ => SdkReply.result true (some { uplink := some v, downlink := none })
    removeUser := fun _ => SdkReply.throws
    serverWriteOk := fun _ => true
    subscriptionSaveOk := fun _ => true }

/-- A world in which the node reports the counter `v` and answers the removal call
with a result that is not ok; the ledger writes succeed. -/
def removalNotFound (v : Int) : World :=
  { getUserStats := fun _ => SdkReply.result true (some { uplink := some v, downlink := none })
    removeUser := fun _ => SdkReply.result false none
    serverWriteOk := fun _ => true
    subscriptionSaveOk := fun _ => true }

/-- A world in which the list call of every node is rejected and every save
succeeds. -/
def probeFails : HealthWorld :=
  { getInboundUsers := fun _ => SdkReply.throws
    saveOk := fun _ => true
    catchSaveOk := fun _ => true }

/-- A world in which every node answers the list call and every save succeeds. -/
def probeSucceeds : HealthWorld :=
  { getInboundUsers := fun _ => SdkReply.result true (some (InboundData.object []))
    saveOk := fun _ => true
    catchSaveOk := fun _ => true }

/-- A node with the given id and status that has not been checked yet. -/
def nodeWithStatus (id : String) (status : ServerStatus) : Server :=
  { id := id, status := status, currentUsers := 0, lastChecked := none }

/-- A host time zone that goes from UTC+1 to UTC+2 at the UTC instant 0, that is at
the local time value 3600000. -/
def springForward : TimeZone :=
  { offsetAt := fun t => if t < 0 then 3600000 else 7200000
    offsetAtLocal := fun t => if t < 3600000 then 3600000 else 7200000 }

/-- The time zone of a host that runs on UTC. -/
def utcZone : TimeZone :=
  { offsetAt := fun _ => 0, offsetAtLocal := fun _ => 0 }

/-! ## Theorems -/

theorem updateTrafficUsed_nil (v : Int) : updateTrafficUsed [] v = [v] := by
  simp [updateTrafficUsed]

theorem updateTrafficUsed_snoc (q : List Int) (l v : Int) :
    updateTrafficUsed (q ++ [l]) v = if v < l then q ++ [l, v] else q ++ [v] := by
  simp [updateTrafficUsed, List.getD_eq_getElem?_getD]

theorem updateTrafficUsed_ends (p : List Int) (v : Int) :
    ∃ q, updateTrafficUsed p v = q ++ [v] := by
  rcases List.eq_nil_or_concat p with rfl | ⟨q, l, rfl⟩
  · exact ⟨[], by simp [updateTrafficUsed_nil]⟩
  · rw [List.concat_eq_append, updateTrafficUsed_snoc]
    by_cases h : v < l
    · exact ⟨q ++ [l], by simp [h]⟩
    · exact ⟨q, by simp [h]⟩

theorem foldl_add_eq_sum (l : List Int) (a : Int) :
    l.foldl (fun sum val => sum + val) a = a + l.sum := by
  induction l generalizing a with
  | nil => simp
  | cons x xs ih => simp [ih, add_assoc]

theorem totalTrafficUsed_eq_sum (l : List Int) : totalTrafficUsed l = l.sum := by
  simp [totalTrafficUsed, foldl_add_eq_sum]

theorem applyObservations_append (p xs ys : List Int) :
    applyObservations p (xs ++ ys) = applyObservations (applyObservations p xs) ys := by
  simp [applyObservations, List.foldl_append]

theorem applyObservations_ends (p pre : List Int) (u : Int) :
    ∃ q, applyObservations p (pre ++ [u]) = q ++ [u] := by
  rw [applyObservations_append]
  exact updateTrafficUsed_ends _ u

theorem applyObservations_length (q : List Int) (l : Int) (obs : List Int) :
    (applyObservations (q ++ [l]) obs).length = (q ++ [l]).length + strictDecreases (l :: obs) := by
  induction obs generalizing q l with
  | nil => simp [applyObservations, strictDecreases]
  | cons v vs ih =>
    have hstep : applyObservations (q ++ [l]) (v :: vs)
        = applyObservations (updateTrafficUsed (q ++ [l]) v) vs := by
      simp [applyObservations]
    rw [hstep, updateTrafficUsed_snoc]
    by_cases h : v < l
    · have e : q ++ [l, v] = (q ++ [l]) ++ [v] := by simp
      rw [if_pos h, e, ih (q ++ [l]) v]
      simp [strictDecreases, h]
      omega
    · rw [if_neg h, ih q v]
      simp [strictDecreases, h]

/-- C1: the period update returns `[v]` on an empty sequence, the sequence with `v`
appended when `v` is strictly below its last entry, and the sequence with its last
entry replaced by `v` otherwise. -/
theorem updateTrafficUsed_cases (p : List Int) (v : Int) :
    (p = [] → updateTrafficUsed p v = [v]) ∧
    (∀ h : p ≠ [], v < p.getLast h → updateTrafficUsed p v = p ++ [v]) ∧
    (∀ h : p ≠ [], ¬ v < p.getLast h → updateTrafficUsed p v = p.dropLast ++ [v]) := by
  rcases List.eq_nil_or_concat p with rfl | ⟨q, l, rfl⟩
  · simp [updateTrafficUsed_nil]
  · rw [List.concat_eq_append]
    refine ⟨by simp, ?_, ?_⟩
    · intro h hlt
      have hl : v < l := by simpa using hlt
      rw [updateTrafficUsed_snoc, if_pos hl]
      simp
    · intro h hge
      have hl : ¬ v < l := by simpa using hge
      rw [updateTrafficUsed_snoc, if_neg hl]
      simp

theorem updateTrafficUsed_cases_witness :
    updateTrafficUsed [] 400 = [400] ∧
    updateTrafficUsed [900] 150 = [900, 150] ∧
    updateTrafficUsed [900, 150] 300 = [900, 300] :=
  ⟨(updateTrafficUsed_cases [] 400).1 rfl,
   (updateTrafficUsed_cases [900] 150).2.1 (by decide) (by decide),
   (updateTrafficUsed_cases [900, 150] 300).2.2 (by decide) (by decide)⟩

/-- C2: polling from an empty period sequence with a non-empty observation
sequence leaves `1 +` (number of strict decreases of the observations) periods. -/
theorem period_count_eq_decreases (observations : List Int) (h : observations ≠ []) :
    (applyObservations [] observations).length = 1 + strictDecreases observations := by
  cases observations with
  | nil => exact absurd rfl h
  | cons o os =>
    have hstep : applyObservations [] (o :: os) = applyObservations ([] ++ [o]) os := by
      simp [applyObservations, updateTrafficUsed_nil]
    rw [hstep, applyObservations_length]
    simp

theorem period_count_eq_decreases_witness :
    (applyObservations [] [400, 900, 150, 300]).length
      = 1 + strictDecreases [400, 900, 150, 300] :=
  period_count_eq_decreases [400, 900, 150, 300] (by decide)

theorem total_step (pre : List Int) (u v : Int) :
    (¬ v < u → totalTrafficUsed (applyObservations [] (pre ++ [u]))
        ≤ totalTrafficUsed (applyObservations [] (pre ++ [u] ++ [v]))) ∧
    (v < u → totalTrafficUsed (applyObservations [] (pre ++ [u] ++ [v]))
        = totalTrafficUsed (applyObservations [] (pre ++ [u])) + v) := by
  obtain ⟨q, hq⟩ := applyObservations_ends [] pre u
  have hstep : applyObservations [] (pre ++ [u] ++ [v])
      = updateTrafficUsed (applyObservations [] (pre ++ [u])) v := by
    rw [applyObservations_append]
    simp [applyObservations]
  rw [hstep, hq, updateTrafficUsed_snoc]
  constructor
  · intro h
    rw [if_neg h]
    simp only [totalTrafficUsed_eq_sum, List.sum_append, List.sum_cons, List.sum_nil]
    omega
  · intro h
    rw [if_pos h]
    simp only [totalTrafficUsed_eq_sum, List.sum_append, List.sum_cons, List.sum_nil]
    omega

/-- C3 (as stated, refuted): the claim says the total goes down exactly at the
steps whose observation is strictly below the preceding one. After the
observations 900, 150 the total is 1050, above the 900 it was before, although
150 < 900. -/
theorem total_drops_exactly_at_decreases_false :
    ¬ (∀ (pre : List Int) (u v : Int),
        totalTrafficUsed (applyObservations [] (pre ++ [u] ++ [v]))
          < totalTrafficUsed (applyObservations [] (pre ++ [u])) ↔ v < u) := by
  intro h
  have h1 := (h [] 900 150).2 (by decide)
  revert h1
  decide

/-- C3 (amended): from one poll to the next the total does not go down when the
observation is not strictly below the preceding one; when it is strictly below, a
period is appended and the total changes by exactly the new observation. So the
total goes down exactly at the steps whose observation is strictly below the
preceding one and negative. The first observation takes the total from 0 to itself. -/
theorem total_monotone_except_negative_reset (pre : List Int) (u v : Int) :
    (¬ v < u → totalTrafficUsed (applyObservations [] (pre ++ [u]))
        ≤ totalTrafficUsed (applyObservations [] (pre ++ [u] ++ [v]))) ∧
    (v < u → totalTrafficUsed (applyObservations [] (pre ++ [u] ++ [v]))
        = totalTrafficUsed (applyObservations [] (pre ++ [u])) + v) ∧
    (totalTrafficUsed (applyObservations [] (pre ++ [u] ++ [v]))
        < totalTrafficUsed (applyObservations [] (pre ++ [u])) ↔ (v < u ∧ v < 0)) ∧
    totalTrafficUsed (applyObservations [] [v]) = v := by
  obtain ⟨h1, h2⟩ := total_step pre u v
  refine ⟨h1, h2, ?_, by simp [applyObservations, updateTrafficUsed_nil, totalTrafficUsed]⟩
  by_cases h : v < u
  · have e := h2 h
    constructor
    · intro hlt
      exact ⟨h, by omega⟩
    · intro hv
      omega
  · have e := h1 h
    constructor
    · intro hlt
      omega
    · intro hv
      exact absurd hv.1 h

theorem total_monotone_except_negative_reset_witness :
    totalTrafficUsed (applyObservations [] ([400] ++ [900] ++ [150]))
      = totalTrafficUsed (applyObservations [] ([400] ++ [900])) + 150 :=
  (total_monotone_except_negative_reset [400] 900 150).2.1 (by decide)

/-- C4: on a non-empty period sequence the update keeps the length or adds one,
leaves every entry before the last position as it was, and does not lower the
entry at the last position. -/
theorem updateTrafficUsed_append_only (p : List Int) (v : Int) (h : p ≠ []) :
    ((updateTrafficUsed p v).length = p.length ∨
      (updateTrafficUsed p v).length = p.length + 1) ∧
    (∀ i, i < p.length - 1 → (updateTrafficUsed p v)[i]? = p[i]?) ∧
    (∃ a b, p[p.length - 1]? = some a ∧
      (updateTrafficUsed p v)[p.length - 1]? = some b ∧ a ≤ b) := by
  rcases List.eq_nil_or_concat p with rfl | ⟨q, l, rfl⟩
  · exact absurd rfl h
  · rw [List.concat_eq_append, updateTrafficUsed_snoc]
    by_cases hv : v < l
    · rw [if_pos hv]
      refine ⟨Or.inr (by simp), ?_, ⟨l, l, ?_, ?_, le_refl l⟩⟩
      · intro i hi
        have hi2 : i < q.length := by simpa using hi
        rw [List.getElem?_append_left hi2, List.getElem?_append_left hi2]
      · simp
      · have e : (q ++ [l]).length - 1 = q.length := by simp
        rw [e, List.getElem?_append_right (le_refl _)]
        simp
    · rw [if_neg hv]
      refine ⟨Or.inl (by simp), ?_, ⟨l, v, ?_, ?_, by omega⟩⟩
      · intro i hi
        have hi2 : i < q.length := by simpa using hi
        rw [List.getElem?_append_left hi2, List.getElem?_append_left hi2]
      · simp
      · simp

theorem updateTrafficUsed_append_only_witness :
    ((updateTrafficUsed [400, 900] 150).length = [400, 900].length ∨
      (updateTrafficUsed [400, 900] 150).length = [400, 900].length + 1) ∧
    (∀ i, i < [400, 900].length - 1 →
      (updateTrafficUsed [400, 900] 150)[i]? = ([400, 900] : List Int)[i]?) ∧
    (∃ a b, ([400, 900] : List Int)[[400, 900].length - 1]? = some a ∧
      (updateTrafficUsed [400, 900] 150)[[400, 900].length - 1]? = some b ∧ a ≤ b) :=
  updateTrafficUsed_append_only [400, 900] 150 (by decide)

/-- C5: an observation equal to the last entry leaves a non-empty period sequence
unchanged, and applying the update twice with the same observation gives the same
sequence as applying it once. -/
theorem updateTrafficUsed_idempotent (p : List Int) (v : Int) :
    (∀ h : p ≠ [], updateTrafficUsed p (p.getLast h) = p) ∧
    updateTrafficUsed (updateTrafficUsed p v) v = updateTrafficUsed p v := by
  constructor
  · intro h
    rcases List.eq_nil_or_concat p with rfl | ⟨q, l, rfl⟩
    · exact absurd rfl h
    · simp only [List.concat_eq_append, List.getLast_append_singleton]
      rw [updateTrafficUsed_snoc, if_neg (lt_irrefl l)]
  · obtain ⟨q, hq⟩ := updateTrafficUsed_ends p v
    rw [hq, updateTrafficUsed_snoc, if_neg (lt_irrefl v)]

theorem updateTrafficUsed_idempotent_witness :
    updateTrafficUsed [900, 300] 300 = [900, 300] ∧
    updateTrafficUsed (updateTrafficUsed [900, 300] 300) 300 = updateTrafficUsed [900, 300] 300 :=
  ⟨(updateTrafficUsed_idempotent [900, 300] 300).1 (by decide),
   (updateTrafficUsed_idempotent [900, 300] 300).2⟩

/-! ### Ledger lemmas -/

theorem find_id_eq (l : List Subscription) (i : String) (d : Subscription)
    (h : l.find? (fun s => s.id == i) = some d) : d.id = i := by
  have := List.find?_some h
  simpa using this

theorem find_after_save (l : List Subscription) (i : String) (d doc : Subscription)
    (h : l.find? (fun s => s.id == i) = some d) (hid : doc.id = i) :
    (l.map (fun s => if s.id == doc.id then doc else s)).find? (fun s => s.id == i)
      = some doc := by
  induction l with
  | nil => simp at h
  | cons x xs ih =>
    rw [List.map_cons]
    by_cases hx : x.id = i
    · have e : (x.id == doc.id) = true := by simp [hx, hid]
      rw [if_pos e, List.find?_cons_of_pos]
      simp [hid]
    · have e : ¬ (x.id == doc.id) = true := by simp [hx, hid]
      have hxs : xs.find? (fun s => s.id == i) = some d := by
        rw [List.find?_cons_of_neg] at h
        · exact h
        · simp [hx]
      rw [if_neg e, List.find?_cons_of_neg]
      · exact ih hxs
      · simp [hx]

theorem filter_after_save (l : List Subscription) (i : String) (doc : Subscription)
    (hid : doc.id ≠ i) :
    (l.map (fun s => if s.id == doc.id then doc else s)).filter (fun s => s.id == i)
      = l.filter (fun s => s.id == i) := by
  induction l with
  | nil => rfl
  | cons x xs ih =>
    rw [List.map_cons]
    by_cases hx : x.id = doc.id
    · have e : (x.id == doc.id) = true := by simp [hx]
      have hxi : (x.id == i) = false := by simp [hx, hid]
      have hdi : (doc.id == i) = false := by simp [hid]
      rw [if_pos e]
      simp only [List.filter_cons, hdi, hxi, Bool.false_eq_true, if_false]
      exact ih
    · have e : ¬ (x.id == doc.id) = true := by simp [hx]
      rw [if_neg e]
      cases hxi : (x.id == i)
      · simp only [List.filter_cons, hxi, Bool.false_eq_true, if_false]
        exact ih
      · simp only [List.filter_cons, hxi, if_true, ih]

/-! ### Shape of one iteration of the traffic limits check -/

theorem saveSubscriptionDoc_effects (w : World) (st : JobState) (doc : Subscription) :
    (saveSubscriptionDoc w st doc).effects = st.effects ++ [Effect.subscriptionSave doc] := by
  unfold saveSubscriptionDoc
  dsimp only
  split <;> rfl

theorem saveSubscriptionDoc_subscriptions (w : World) (st : JobState) (doc : Subscription) :
    (saveSubscriptionDoc w st doc).ledger.subscriptions = st.ledger.subscriptions ∨
    (saveSubscriptionDoc w st doc).ledger.subscriptions
      = (st.ledger.saveSubscription doc).subscriptions := by
  unfold saveSubscriptionDoc
  dsimp only
  split
  · exact Or.inr rfl
  · exact Or.inl rfl

theorem trafficLimitsCheckStep_shape (w : World) (st : JobState) (sub : Subscription) :
    ∃ effs, (trafficLimitsCheckStep w st sub).effects = st.effects ++ effs ∧
      (∀ e ∈ effs, ∀ j, e.isNodeCallFor j = true → j = sub.id) ∧
      ((trafficLimitsCheckStep w st sub).ledger.subscriptions = st.ledger.subscriptions ∨
        ∃ doc, doc.id = sub.id ∧ (trafficLimitsCheckStep w st sub).ledger.subscriptions
            = (st.ledger.saveSubscription doc).subscriptions) := by
  unfold trafficLimitsCheckStep
  cases hpop : populate st.populated sub.currentServer with
  | none => exact ⟨[], by simp, by simp, Or.inl rfl⟩
  | some srv =>
    cases hdoc : st.ledger.findSubscriptionById sub.id with
    | none => exact ⟨[], by simp, by simp, Or.inl rfl⟩
    | some doc =>
      have hid : doc.id = sub.id := find_id_eq _ _ _ hdoc
      dsimp only
      split
      · exact ⟨[], by simp, by simp, Or.inl rfl⟩
      · split
        · exact ⟨[Effect.queryUserStats srv.id sub.id], rfl,
            by simp [Effect.isNodeCallFor], Or.inl rfl⟩
        · split
          · split
            · exact ⟨[Effect.queryUserStats srv.id sub.id, Effect.removeUser srv.id sub.id],
                by simp, by simp [Effect.isNodeCallFor], Or.inl rfl⟩
            · split
              · rename_i _ stats _ _ _ _ _ _
                refine ⟨[Effect.queryUserStats srv.id sub.id, Effect.removeUser srv.id sub.id,
                  Effect.serverWrite srv.id (decrementUsers srv.currentUsers),
                  Effect.subscriptionSave { doc with
                    trafficUsed := updateTrafficUsed doc.trafficUsed stats.total
                    status := SubscriptionStatus.suspended
                    currentServer := none }], ?_, ?_, ?_⟩
                · rw [saveSubscriptionDoc_effects]
                  simp
                · simp [Effect.isNodeCallFor]
                · rcases saveSubscriptionDoc_subscriptions w _ _ with h | h
                  · exact Or.inl h
                  · exact Or.inr ⟨_, by exact hid, h⟩
              · exact ⟨[Effect.queryUserStats srv.id sub.id, Effect.removeUser srv.id sub.id,
                  Effect.serverWrite srv.id (decrementUsers srv.currentUsers)],
                  by simp, by simp [Effect.isNodeCallFor], Or.inl rfl⟩
          · rename_i _ stats _ _
            refine ⟨[Effect.queryUserStats srv.id sub.id, Effect.subscriptionSave { doc with
              trafficUsed := updateTrafficUsed doc.trafficUsed stats.total }], ?_, ?_, ?_⟩
            · rw [saveSubscriptionDoc_effects]
              simp
            · simp [Effect.isNodeCallFor]
            · rcases saveSubscriptionDoc_subscriptions w _ _ with h | h
              · exact Or.inl h
              · exact Or.inr ⟨_, by exact hid, h⟩

/-! ### The load decrement -/

theorem decrementUsers_bounds (n : Int) :
    decrementUsers n = max 0 (n - 1) ∧ 0 ≤ decrementUsers n ∧
    (0 ≤ n → decrementUsers n ≤ n ∧ n - decrementUsers n ≤ 1) := by
  unfold decrementUsers
  refine ⟨rfl, le_max_left _ _, ?_⟩
  intro h
  rcases max_cases 0 (n - 1) with ⟨e, _⟩ | ⟨e, _⟩ <;> rw [e] <;> omega

theorem mem_setCurrentUsers (servers : List Server) (id : String) (n : Int) (s : Server)
    (h : s ∈ setCurrentUsers servers id n) :
    s ∈ servers ∨ (s.id = id ∧ s.currentUsers = n) := by
  unfold setCurrentUsers at h
  rw [List.mem_map] at h
  obtain ⟨x, hx, rfl⟩ := h
  by_cases e : x.id = id
  · right
    simp [e]
  · left
    simpa [e] using hx

theorem trafficLimitsCheckStep_decrement (w : World) (st : JobState) (sub : Subscription) :
    ((trafficLimitsCheckStep w st sub).ledger.servers = st.ledger.servers ∨
      ∃ server, populate st.populated sub.currentServer = some server ∧
        (trafficLimitsCheckStep w st sub).ledger.servers
          = setCurrentUsers st.ledger.servers server.id (decrementUsers server.currentUsers)) ∧
    (∀ sid v, Effect.serverWrite sid v ∈ (trafficLimitsCheckStep w st sub).effects →
      Effect.serverWrite sid v ∈ st.effects ∨
      ∃ server, populate st.populated sub.currentServer = some server ∧
        sid = server.id ∧ v = decrementUsers server.currentUsers) := by
  unfold trafficLimitsCheckStep
  cases hpop : populate st.populated sub.currentServer with
  | none => exact ⟨Or.inl rfl, fun _ _ h => Or.inl h⟩
  | some srv =>
    cases hdoc : st.ledger.findSubscriptionById sub.id with
    | none => exact ⟨Or.inl rfl, fun _ _ h => Or.inl h⟩
    | some doc =>
      dsimp only
      split
      · exact ⟨Or.inl rfl, fun _ _ h => Or.inl h⟩
      · split
        · exact ⟨Or.inl rfl, fun _ _ h => Or.inl (by simpa using h)⟩
        · split
          · split
            · exact ⟨Or.inl rfl, fun _ _ h => Or.inl (by simpa using h)⟩
            · split
              · refine ⟨Or.inr ⟨srv, rfl, ?_⟩, ?_⟩
                · unfold saveSubscriptionDoc
                  dsimp only
                  split <;> rfl
                · intro sid v h
                  rw [saveSubscriptionDoc_effects] at h
                  simp at h
                  rcases h with h | ⟨h1, h2⟩
                  · exact Or.inl h
                  · exact Or.inr ⟨srv, rfl, h1, h2⟩
              · refine ⟨Or.inl rfl, ?_⟩
                intro sid v h
                simp at h
                rcases h with h | ⟨h1, h2⟩
                · exact Or.inl h
                · exact Or.inr ⟨srv, rfl, h1, h2⟩
          · refine ⟨Or.inl ?_, ?_⟩
            · unfold saveSubscriptionDoc
              dsimp only
              split <;> rfl
            · intro sid v h
              rw [saveSubscriptionDoc_effects] at h
              simp at h
              exact Or.inl h

theorem expiredSubscriptionsCheckStep_decrement (w : World) (st : JobState)
    (sub : Subscription) :
    ((stateOf (expiredSubscriptionsCheckStep w st sub)).ledger.servers = st.ledger.servers ∨
      ∃ server, populate st.populated sub.currentServer = some server ∧
        (stateOf (expiredSubscriptionsCheckStep w st sub)).ledger.servers
          = setCurrentUsers st.ledger.servers server.id (decrementUsers server.currentUsers)) ∧
    (∀ sid v, Effect.serverWrite sid v ∈ (stateOf (expiredSubscriptionsCheckStep w st sub)).effects →
      Effect.serverWrite sid v ∈ st.effects ∨
      ∃ server, populate st.populated sub.currentServer = some server ∧
        sid = server.id ∧ v = decrementUsers server.currentUsers) := by
  unfold expiredSubscriptionsCheckStep
  cases hpop : populate st.populated sub.currentServer with
  | none =>
    dsimp only
    cases hu : sub.user <;> cases hs : w.subscriptionSaveOk sub.id <;>
      simp [stateOf, Ledger.saveSubscription]
  | some srv =>
    cases hu : sub.user with
    | none =>
      simp only [stateOf]
      exact ⟨Or.inl (by trivial), fun _ _ h => Or.inl h⟩
    | some u =>
      dsimp only
      cases hr : removeInboundUser (w.removeUser sub.id) with
      | error e =>
        cases hs : w.subscriptionSaveOk sub.id <;>
          simp only [stateOf, Ledger.saveSubscription, Bool.false_eq_true, if_false, if_true] <;>
          exact ⟨Or.inl (by trivial), fun _ _ h => Or.inl (by simpa using h)⟩
      | ok a =>
        cases hw : w.serverWriteOk sub.id <;> cases hs : w.subscriptionSaveOk sub.id <;>
          simp only [stateOf, Ledger.saveSubscription, Bool.false_eq_true, if_false, if_true]
        · refine ⟨Or.inl (by trivial), ?_⟩
          intro sid v h
          simp at h
          tauto
        · refine ⟨Or.inl (by trivial), ?_⟩
          intro sid v h
          simp at h
          tauto
        · refine ⟨Or.inr ⟨srv, rfl, rfl⟩, ?_⟩
          intro sid v h
          simp at h
          tauto
        · refine ⟨Or.inr ⟨srv, rfl, rfl⟩, ?_⟩
          intro sid v h
          simp at h
          tauto

/-! ### A suspended subscription is left alone -/

theorem trafficLimitsCheck_fold_other (w : World) (i : String) (subs : List Subscription)
    (st : JobState) (hsubs : ∀ s ∈ subs, s.id ≠ i) :
    ((subs.foldl (trafficLimitsCheckStep w) st).ledger.subscriptions.filter (fun s => s.id == i)
        = st.ledger.subscriptions.filter (fun s => s.id == i)) ∧
    ∃ effs, (subs.foldl (trafficLimitsCheckStep w) st).effects = st.effects ++ effs ∧
      ∀ e ∈ effs, e.isNodeCallFor i = false := by
  induction subs generalizing st with
  | nil => exact ⟨rfl, [], by simp, by simp⟩
  | cons s rest ih =>
    have hs : s.id ≠ i := hsubs s (by simp)
    have hrest : ∀ x ∈ rest, x.id ≠ i := fun x hx => hsubs x (by simp [hx])
    obtain ⟨effs1, he1, hn1, hl1⟩ := trafficLimitsCheckStep_shape w st s
    obtain ⟨hf, effs2, he2, hn2⟩ := ih (trafficLimitsCheckStep w st s) hrest
    rw [List.foldl_cons]
    refine ⟨?_, effs1 ++ effs2, ?_, ?_⟩
    · rw [hf]
      rcases hl1 with h | ⟨doc, hd, h⟩
      · rw [h]
      · rw [h]
        exact filter_after_save _ _ _ (by rw [hd]; exact hs)
    · rw [he2, he1, List.append_assoc]
    · intro e he
      rcases List.mem_append.1 he with h | h
      · cases hb : e.isNodeCallFor i
        · rfl
        · exact absurd (hn1 e h i hb).symm hs
      · exact hn2 e h

theorem trafficLimitsCheck_suspended (w : World) (ledger : Ledger) (i : String)
    (hsusp : ∀ s ∈ ledger.subscriptions, s.id = i →
      s.status = SubscriptionStatus.suspended ∧ s.currentServer = none) :
    (trafficLimitsCheck w ledger).ledger.subscriptions.filter (fun s => s.id == i)
      = ledger.subscriptions.filter (fun s => s.id == i) ∧
    ∀ e ∈ (trafficLimitsCheck w ledger).effects, e.isNodeCallFor i = false := by
  have hsubs : ∀ s ∈ ledger.subscriptions.filter
      (fun s => s.status == SubscriptionStatus.active), s.id ≠ i := by
    intro s hs hid
    rw [List.mem_filter] at hs
    have h1 := (hsusp s hs.1 hid).1
    have h2 : s.status = SubscriptionStatus.active := by simpa using hs.2
    rw [h1] at h2
    exact SubscriptionStatus.noConfusion h2
  obtain ⟨hf, effs, he, hn⟩ :=
    trafficLimitsCheck_fold_other w i _ (JobState.start ledger) hsubs
  refine ⟨hf, ?_⟩
  intro e hmem
  have e2 : (trafficLimitsCheck w ledger).effects = effs := by
    simpa [JobState.start] using he
  rw [e2] at hmem
  exact hn e hmem

/-! ### The traffic limits check, the subscription methods and the load decrement -/

/-- C6: in an iteration of the traffic limits check on a subscription with an
assigned node, an owner, a statistics reply and a succeeding removal call: when
the total of the updated periods reaches the limit and the ledger writes succeed,
the stored subscription has status suspended and no node; when the total is
strictly below the limit, status and node are as before and the iteration issues
only the statistics query and the save, so no removal call. -/
theorem trafficLimitsCheckStep_quota (w : World) (st : JobState)
    (subscription subscriptionDoc : Subscription) (currentServer : Server) (stats : Stats)
    (hpop : populate st.populated subscription.currentServer = some currentServer)
    (hdoc : st.ledger.findSubscriptionById subscription.id = some subscriptionDoc)
    (huser : subscriptionDoc.user.isNone = false)
    (hstats : queryUserStats (w.getUserStats subscription.id) = Except.ok stats)
    (hremove : removeInboundUser (w.removeUser subscription.id) = Except.ok ()) :
    (totalTrafficUsed (updateTrafficUsed subscriptionDoc.trafficUsed stats.total)
        ≥ subscriptionDoc.trafficLimit →
      w.serverWriteOk subscription.id = true → w.subscriptionSaveOk subscription.id = true →
      (trafficLimitsCheckStep w st subscription).ledger.findSubscriptionById subscription.id
        = some { subscriptionDoc with
            trafficUsed := updateTrafficUsed subscriptionDoc.trafficUsed stats.total
            status := SubscriptionStatus.suspended
            currentServer := none }) ∧
    (totalTrafficUsed (updateTrafficUsed subscriptionDoc.trafficUsed stats.total)
        < subscriptionDoc.trafficLimit →
      (∃ d, (trafficLimitsCheckStep w st subscription).ledger.findSubscriptionById subscription.id
          = some d ∧ d.status = subscriptionDoc.status ∧
          d.currentServer = subscriptionDoc.currentServer) ∧
      (trafficLimitsCheckStep w st subscription).effects
        = st.effects ++ [Effect.queryUserStats currentServer.id subscription.id,
            Effect.subscriptionSave { subscriptionDoc with
              trafficUsed := updateTrafficUsed subscriptionDoc.trafficUsed stats.total }]) := by
  have hid : subscriptionDoc.id = subscription.id := find_id_eq _ _ _ hdoc
  constructor
  · intro hlimit hwrite hsave
    have hl : limitReached (updateTrafficUsed subscriptionDoc.trafficUsed stats.total)
        subscriptionDoc.trafficLimit = true := by
      simpa [limitReached] using hlimit
    have hsave2 : w.subscriptionSaveOk subscriptionDoc.id = true := by rw [hid]; exact hsave
    simp only [trafficLimitsCheckStep, hpop, hdoc, huser, hstats, hl, hremove, hwrite,
      saveSubscriptionDoc, hsave2, if_true, Bool.false_eq_true, if_false]
    exact find_after_save _ _ subscriptionDoc _ hdoc (by exact hid)
  · intro hlimit
    have hl : limitReached (updateTrafficUsed subscriptionDoc.trafficUsed stats.total)
        subscriptionDoc.trafficLimit = false := by
      simpa [limitReached] using hlimit
    simp only [trafficLimitsCheckStep, hpop, hdoc, huser, hstats, hl,
      saveSubscriptionDoc, Bool.false_eq_true, if_false]
    constructor
    · cases hsave : w.subscriptionSaveOk subscriptionDoc.id
      · exact ⟨subscriptionDoc, by simpa using hdoc, rfl, rfl⟩
      · exact ⟨_, find_after_save _ _ subscriptionDoc _ hdoc (by exact hid), rfl, rfl⟩
    · cases hsave : w.subscriptionSaveOk subscriptionDoc.id <;> simp

theorem trafficLimitsCheckStep_quota_witness :
    (trafficLimitsCheckStep (observing 1200) (JobState.start quotaLedger)
        quotaSub).ledger.findSubscriptionById quotaSub.id
      = some { quotaSub with
          trafficUsed := updateTrafficUsed quotaSub.trafficUsed 1200
          status := SubscriptionStatus.suspended
          currentServer := none } ∧
    (trafficLimitsCheckStep (observing 400) (JobState.start quotaLedger) quotaSub).effects
      = [Effect.queryUserStats quotaNode.id quotaSub.id,
         Effect.subscriptionSave { quotaSub with
           trafficUsed := updateTrafficUsed quotaSub.trafficUsed 400 }] :=
  ⟨(trafficLimitsCheckStep_quota (observing 1200) (JobState.start quotaLedger) quotaSub quotaSub
      quotaNode { uplink := 1200, downlink := 0, total := 1200 } rfl rfl rfl rfl rfl).1
      (by decide) rfl rfl,
   ((trafficLimitsCheckStep_quota (observing 400) (JobState.start quotaLedger) quotaSub quotaSub
      quotaNode { uplink := 400, downlink := 0, total := 400 } rfl rfl rfl rfl rfl).2
      (by decide)).2⟩

/-- C7 (as stated, refuted): with every call succeeding, the four polls 400, 900,
150, 300 of the traffic limits check do not leave the periods `[900, 300]` with
total 1200 in the ledger. -/
theorem quota_scenario_claimed_periods_refuted :
    ¬ ((trafficLimitsCheckRuns [observing 400, observing 900, observing 150, observing 300]
        quotaLedger).1.subscriptions.map
          (fun s => (s.trafficUsed, totalTrafficUsed s.trafficUsed))
        = [([900, 300], 1200)]) := by
  decide

/-- C7 (amended): with every call succeeding, the subscription with limit 1000 and
no period is suspended by the third poll, where the total 900 + 150 = 1050 reaches
the limit; the stored periods are `[900, 150]`, and the fourth run skips the
subscription, so the observation 300 is never read. The period update alone, applied
to the four observations, gives `[900, 300]` with total 1200. -/
theorem quota_scenario_stored_periods :
    (trafficLimitsCheckRuns [observing 400, observing 900, observing 150, observing 300]
        quotaLedger).1.subscriptions
      = [{ quotaSub with
            trafficUsed := [900, 150]
            status := SubscriptionStatus.suspended
            currentServer := none }] ∧
    totalTrafficUsed [900, 150] = 1050 ∧
    (trafficLimitsCheckRuns [observing 400, observing 900, observing 150, observing 300]
        quotaLedger).2
      = [[Effect.queryUserStats "n1" "s1",
          Effect.subscriptionSave { quotaSub with trafficUsed := [400] }],
         [Effect.queryUserStats "n1" "s1",
          Effect.subscriptionSave { quotaSub with trafficUsed := [900] }],
         [Effect.queryUserStats "n1" "s1", Effect.removeUser "n1" "s1",
          Effect.serverWrite "n1" 0,
          Effect.subscriptionSave { quotaSub with
            trafficUsed := [900, 150]
            status := SubscriptionStatus.suspended
            currentServer := none }],
         []] ∧
    applyObservations [] [400, 900, 150, 300] = [900, 300] ∧
    totalTrafficUsed [900, 300] = 1200 := by
  decide

/-- C8: once the stored subscription is suspended with no node (as a suspending run
leaves it), any number of later runs of the traffic limits check, whatever the node
would answer, leave its stored record as it is and issue no node call for it. -/
theorem suspended_subscription_skipped (ws : List World) (ledger : Ledger) (i : String)
    (hsusp : ∀ s ∈ ledger.subscriptions, s.id = i →
      s.status = SubscriptionStatus.suspended ∧ s.currentServer = none) :
    (trafficLimitsCheckRuns ws ledger).1.subscriptions.filter (fun s => s.id == i)
      = ledger.subscriptions.filter (fun s => s.id == i) ∧
    ∀ effects ∈ (trafficLimitsCheckRuns ws ledger).2,
      ∀ e ∈ effects, e.isNodeCallFor i = false := by
  induction ws generalizing ledger with
  | nil => exact ⟨rfl, by simp [trafficLimitsCheckRuns]⟩
  | cons w rest ih =>
    obtain ⟨hf, hn⟩ := trafficLimitsCheck_suspended w ledger i hsusp
    have hnext : ∀ s ∈ (trafficLimitsCheck w ledger).ledger.subscriptions, s.id = i →
        s.status = SubscriptionStatus.suspended ∧ s.currentServer = none := by
      intro s hs hid
      have hmem : s ∈ (trafficLimitsCheck w ledger).ledger.subscriptions.filter
          (fun s => s.id == i) := by
        rw [List.mem_filter]
        exact ⟨hs, by simp [hid]⟩
      rw [hf, List.mem_filter] at hmem
      exact hsusp s hmem.1 hid
    obtain ⟨hf2, hn2⟩ := ih (trafficLimitsCheck w ledger).ledger hnext
    simp only [trafficLimitsCheckRuns]
    refine ⟨by rw [hf2, hf], ?_⟩
    intro effects hmem e he
    rcases List.mem_cons.1 hmem with h | h
    · rw [h] at he
      exact hn e he
    · exact hn2 effects h e he

theorem suspended_subscription_skipped_witness :
    (∀ s ∈ quotaLedgerAfterCrossing.subscriptions, s.id = quotaSub.id →
      s.status = SubscriptionStatus.suspended ∧ s.currentServer = none) ∧
    (trafficLimitsCheckRuns [observing 150, observing 300]
        quotaLedgerAfterCrossing).1.subscriptions.filter (fun s => s.id == quotaSub.id)
      = quotaLedgerAfterCrossing.subscriptions.filter (fun s => s.id == quotaSub.id) ∧
    ∀ effects ∈ (trafficLimitsCheckRuns [observing 150, observing 300]
        quotaLedgerAfterCrossing).2,
      ∀ e ∈ effects, e.isNodeCallFor quotaSub.id = false :=
  ⟨by decide,
   suspended_subscription_skipped [observing 150, observing 300] quotaLedgerAfterCrossing
    quotaSub.id (by decide)⟩

/-- C9: `getTotalTrafficUsed` is the sum of the periods (0 when there is none), and
`hasTrafficRemaining` holds exactly when that sum is strictly below the limit, that
is exactly when the suspension condition of the traffic limits check fails. -/
theorem hasTrafficRemaining_iff (s : Subscription) :
    s.getTotalTrafficUsed = s.trafficUsed.sum ∧
    (s.trafficUsed = [] → s.getTotalTrafficUsed = 0) ∧
    (s.hasTrafficRemaining = true ↔ s.trafficUsed.sum < s.trafficLimit) ∧
    (s.hasTrafficRemaining = true ↔ limitReached s.trafficUsed s.trafficLimit = false) := by
  have hsum : s.getTotalTrafficUsed = s.trafficUsed.sum := by
    simp [Subscription.getTotalTrafficUsed, foldl_add_eq_sum]
  refine ⟨hsum, ?_, ?_, ?_⟩
  · intro h
    rw [hsum, h]
    rfl
  · simp [Subscription.hasTrafficRemaining, foldl_add_eq_sum]
  · simp [Subscription.hasTrafficRemaining, limitReached, totalTrafficUsed, foldl_add_eq_sum]

theorem hasTrafficRemaining_iff_witness :
    ({ quotaSub with trafficUsed := [] } : Subscription).getTotalTrafficUsed = 0 :=
  (hasTrafficRemaining_iff { quotaSub with trafficUsed := [] }).2.1 rfl

theorem saveSubscriptionDoc_servers (w : World) (st : JobState) (doc : Subscription) :
    (saveSubscriptionDoc w st doc).ledger.servers = st.ledger.servers := by
  unfold saveSubscriptionDoc
  dsimp only
  split <;> rfl

theorem setCurrentUsers_stored (servers : List Server) (id : String) (n : Int) :
    (∀ s ∈ setCurrentUsers servers id n, s.id = id → s.currentUsers = n) ∧
    (∀ s ∈ servers, s.id = id → { s with currentUsers := n } ∈ setCurrentUsers servers id n) ∧
    (∀ s ∈ servers, s.id ≠ id → s ∈ setCurrentUsers servers id n) := by
  unfold setCurrentUsers
  refine ⟨?_, ?_, ?_⟩
  · intro s hs hid
    rw [List.mem_map] at hs
    obtain ⟨x, _, rfl⟩ := hs
    by_cases e : x.id = id
    · simp [e]
    · simp [e] at hid
  · intro s hs hid
    exact List.mem_map.2 ⟨s, hs, by simp [hid]⟩
  · intro s hs hid
    exact List.mem_map.2 ⟨s, hs, by simp [hid]⟩

theorem populate_setCurrentUsers (servers : List Server) (id : String) (n : Int)
    (server : Server)
    (h : populate servers (some id) = some server) :
    populate (setCurrentUsers servers id n) (some id)
      = some { server with currentUsers := n } := by
  simp only [populate, Option.some_bind] at h ⊢
  induction servers with
  | nil => simp at h
  | cons x rest ih =>
    unfold setCurrentUsers
    rw [List.map_cons]
    cases hx : (x.id == id)
    · simp only [List.find?_cons, hx] at h
      simp only [hx, Bool.false_eq_true, if_false, List.find?_cons]
      exact ih h
    · simp only [List.find?_cons, hx, Option.some.injEq] at h
      subst h
      simp only [hx, if_true, List.find?_cons]

theorem setCurrentUsers_populate (servers : List Server) (ref : Option String)
    (server : Server) (n : Int) (h : populate servers ref = some server) :
    populate (setCurrentUsers servers server.id n) ref
      = some { server with currentUsers := n } := by
  cases ref with
  | none => simp [populate] at h
  | some i =>
    have hid : server.id = i := by
      simp only [populate, Option.some_bind] at h
      have := List.find?_some h
      simpa using this
    subst hid
    exact populate_setCurrentUsers servers server.id n server h

theorem trafficLimitsCheckStep_stored (w : World) (st : JobState)
    (subscription subscriptionDoc : Subscription) (server : Server) (stats : Stats)
    (hpop : populate st.populated subscription.currentServer = some server)
    (hdoc : st.ledger.findSubscriptionById subscription.id = some subscriptionDoc)
    (huser : subscriptionDoc.user.isNone = false)
    (hstats : queryUserStats (w.getUserStats subscription.id) = Except.ok stats)
    (hlimit : limitReached (updateTrafficUsed subscriptionDoc.trafficUsed stats.total)
      subscriptionDoc.trafficLimit = true)
    (hremove : removeInboundUser (w.removeUser subscription.id) = Except.ok ())
    (hwrite : w.serverWriteOk subscription.id = true) :
    (trafficLimitsCheckStep w st subscription).ledger.servers
      = setCurrentUsers st.ledger.servers server.id (decrementUsers server.currentUsers) ∧
    Effect.serverWrite server.id (decrementUsers server.currentUsers)
      ∈ (trafficLimitsCheckStep w st subscription).effects := by
  simp only [trafficLimitsCheckStep, hpop, hdoc, huser, hstats, hlimit, hremove, hwrite,
    if_true, Bool.false_eq_true, if_false]
  rw [saveSubscriptionDoc_servers, saveSubscriptionDoc_effects]
  exact ⟨rfl, by simp⟩

theorem expiredSubscriptionsCheckStep_stored (w : World) (st : JobState)
    (subscription : Subscription) (server : Server) (owner : User)
    (hpop : populate st.populated subscription.currentServer = some server)
    (huser : subscription.user = some owner)
    (hremove : removeInboundUser (w.removeUser subscription.id) = Except.ok ())
    (hwrite : w.serverWriteOk subscription.id = true) :
    (stateOf (expiredSubscriptionsCheckStep w st subscription)).ledger.servers
      = setCurrentUsers st.ledger.servers server.id (decrementUsers server.currentUsers) ∧
    Effect.serverWrite server.id (decrementUsers server.currentUsers)
      ∈ (stateOf (expiredSubscriptionsCheckStep w st subscription)).effects := by
  unfold expiredSubscriptionsCheckStep
  simp only [hpop, huser, hremove, hwrite, if_true]
  cases hs : w.subscriptionSaveOk subscription.id <;>
    simp [stateOf, Ledger.saveSubscription]

theorem stored_after_decrement (before after : List Server) (ref : Option String)
    (server : Server)
    (h : after = setCurrentUsers before server.id (decrementUsers server.currentUsers)) :
    after = setCurrentUsers before server.id (max 0 (server.currentUsers - 1)) ∧
    (∀ s ∈ after, s.id = server.id → s.currentUsers = max 0 (server.currentUsers - 1)) ∧
    (∀ s ∈ before, s.id = server.id →
      { s with currentUsers := max 0 (server.currentUsers - 1) } ∈ after) ∧
    (∀ s ∈ before, s.id ≠ server.id → s ∈ after) ∧
    (populate before ref = some server →
      populate after ref
        = some { server with currentUsers := max 0 (server.currentUsers - 1) }) := by
  have hd : decrementUsers server.currentUsers = max 0 (server.currentUsers - 1) := rfl
  rw [hd] at h
  subst h
  obtain ⟨a1, a2, a3⟩ :=
    setCurrentUsers_stored before server.id (max 0 (server.currentUsers - 1))
  exact ⟨rfl, a1, a2, a3, fun hp => setCurrentUsers_populate before ref server _ hp⟩

/-- C10: every write of `currentUsers` issued by an iteration of the traffic limits
check or of the hourly sweep carries `max(0, n - 1)`, where `n` is the count held
by the populated node of the subscription; that value is never negative and, for
`n ≥ 0`, is below `n` by at most 1. The same holds for every server record that an
iteration changes in the ledger. When the iteration reaches the decrement and the
write succeeds, the write is issued and the stored nodes are those of before with
the count of every record of this node set to `max(0, n - 1)` and the other records
kept, so that a node stored with the count `n` the job holds is stored with
`max(0, n - 1)` afterwards. -/
theorem currentUsers_decrement_floor (w : World) (st : JobState) (subscription : Subscription) :
    (∀ sid v,
      (Effect.serverWrite sid v ∈ (trafficLimitsCheckStep w st subscription).effects ∨
        Effect.serverWrite sid v
          ∈ (stateOf (expiredSubscriptionsCheckStep w st subscription)).effects) →
      Effect.serverWrite sid v ∈ st.effects ∨
      ∃ server, populate st.populated subscription.currentServer = some server ∧
        sid = server.id ∧ v = max 0 (server.currentUsers - 1) ∧ 0 ≤ v ∧
        (0 ≤ server.currentUsers → v ≤ server.currentUsers ∧ server.currentUsers - v ≤ 1)) ∧
    (∀ s,
      (s ∈ (trafficLimitsCheckStep w st subscription).ledger.servers ∨
        s ∈ (stateOf (expiredSubscriptionsCheckStep w st subscription)).ledger.servers) →
      s ∈ st.ledger.servers ∨
      ∃ server, populate st.populated subscription.currentServer = some server ∧
        s.id = server.id ∧ s.currentUsers = max 0 (server.currentUsers - 1) ∧
        0 ≤ s.currentUsers ∧
        (0 ≤ server.currentUsers →
          s.currentUsers ≤ server.currentUsers ∧ server.currentUsers - s.currentUsers ≤ 1)) ∧
    (∀ server subscriptionDoc stats,
      populate st.populated subscription.currentServer = some server →
      st.ledger.findSubscriptionById subscription.id = some subscriptionDoc →
      subscriptionDoc.user.isNone = false →
      queryUserStats (w.getUserStats subscription.id) = Except.ok stats →
      totalTrafficUsed (updateTrafficUsed subscriptionDoc.trafficUsed stats.total)
        ≥ subscriptionDoc.trafficLimit →
      removeInboundUser (w.removeUser subscription.id) = Except.ok () →
      w.serverWriteOk subscription.id = true →
      Effect.serverWrite server.id (max 0 (server.currentUsers - 1))
        ∈ (trafficLimitsCheckStep w st subscription).effects ∧
      (trafficLimitsCheckStep w st subscription).ledger.servers
        = setCurrentUsers st.ledger.servers server.id (max 0 (server.currentUsers - 1)) ∧
      (∀ s ∈ (trafficLimitsCheckStep w st subscription).ledger.servers,
        s.id = server.id → s.currentUsers = max 0 (server.currentUsers - 1)) ∧
      (∀ s ∈ st.ledger.servers, s.id = server.id →
        { s with currentUsers := max 0 (server.currentUsers - 1) }
          ∈ (trafficLimitsCheckStep w st subscription).ledger.servers) ∧
      (∀ s ∈ st.ledger.servers, s.id ≠ server.id →
        s ∈ (trafficLimitsCheckStep w st subscription).ledger.servers) ∧
      (populate st.ledger.servers subscription.currentServer = some server →
        populate (trafficLimitsCheckStep w st subscription).ledger.servers
            subscription.currentServer
          = some { server with currentUsers := max 0 (server.currentUsers - 1) })) ∧
    (∀ server owner,
      populate st.populated subscription.currentServer = some server →
      subscription.user = some owner →
      removeInboundUser (w.removeUser subscription.id) = Except.ok () →
      w.serverWriteOk subscription.id = true →
      Effect.serverWrite server.id (max 0 (server.currentUsers - 1))
        ∈ (stateOf (expiredSubscriptionsCheckStep w st subscription)).effects ∧
      (stateOf (expiredSubscriptionsCheckStep w st subscription)).ledger.servers
        = setCurrentUsers st.ledger.servers server.id (max 0 (server.currentUsers - 1)) ∧
      (∀ s ∈ (stateOf (expiredSubscriptionsCheckStep w st subscription)).ledger.servers,
        s.id = server.id → s.currentUsers = max 0 (server.currentUsers - 1)) ∧
      (∀ s ∈ st.ledger.servers, s.id = server.id →
        { s with currentUsers := max 0 (server.currentUsers - 1) }
          ∈ (stateOf (expiredSubscriptionsCheckStep w st subscription)).ledger.servers) ∧
      (∀ s ∈ st.ledger.servers, s.id ≠ server.id →
        s ∈ (stateOf (expiredSubscriptionsCheckStep w st subscription)).ledger.servers) ∧
      (populate st.ledger.servers subscription.currentServer = some server →
        populate (stateOf (expiredSubscriptionsCheckStep w st subscription)).ledger.servers
            subscription.currentServer
          = some { server with currentUsers := max 0 (server.currentUsers - 1) })) := by
  obtain ⟨ht1, ht2⟩ := trafficLimitsCheckStep_decrement w st subscription
  obtain ⟨he1, he2⟩ := expiredSubscriptionsCheckStep_decrement w st subscription
  refine ⟨?_, ?_, ?_, ?_⟩
  · intro sid v h
    have key : Effect.serverWrite sid v ∈ st.effects ∨
        ∃ server, populate st.populated subscription.currentServer = some server ∧
          sid = server.id ∧ v = decrementUsers server.currentUsers := by
      rcases h with h | h
      · exact ht2 sid v h
      · exact he2 sid v h
    rcases key with h | ⟨server, hp, hs, hv⟩
    · exact Or.inl h
    · obtain ⟨b1, b2, b3⟩ := decrementUsers_bounds server.currentUsers
      exact Or.inr ⟨server, hp, hs, by rw [hv, b1], by rw [hv]; exact b2, by rw [hv]; exact b3⟩
  · intro s h
    have key : s ∈ st.ledger.servers ∨
        ∃ server, populate st.populated subscription.currentServer = some server ∧
          s ∈ setCurrentUsers st.ledger.servers server.id (decrementUsers server.currentUsers) := by
      rcases h with h | h
      · rcases ht1 with e | ⟨server, hp, e⟩
        · exact Or.inl (e ▸ h)
        · exact Or.inr ⟨server, hp, e ▸ h⟩
      · rcases he1 with e | ⟨server, hp, e⟩
        · exact Or.inl (e ▸ h)
        · exact Or.inr ⟨server, hp, e ▸ h⟩
    rcases key with h | ⟨server, hp, hmem⟩
    · exact Or.inl h
    · rcases mem_setCurrentUsers _ _ _ _ hmem with h | ⟨hs, hv⟩
      · exact Or.inl h
      · obtain ⟨b1, b2, b3⟩ := decrementUsers_bounds server.currentUsers
        exact Or.inr ⟨server, hp, hs, by rw [hv, b1], by rw [hv]; exact b2, by rw [hv]; exact b3⟩
  · intro server subscriptionDoc stats hpop hdoc huser hstats hlimit hremove hwrite
    have hl : limitReached (updateTrafficUsed subscriptionDoc.trafficUsed stats.total)
        subscriptionDoc.trafficLimit = true := by
      simpa [limitReached] using hlimit
    obtain ⟨hs, heff⟩ := trafficLimitsCheckStep_stored w st subscription subscriptionDoc
      server stats hpop hdoc huser hstats hl hremove hwrite
    exact ⟨heff, stored_after_decrement _ _ subscription.currentServer server hs⟩
  · intro server owner hpop huser hremove hwrite
    obtain ⟨hs, heff⟩ := expiredSubscriptionsCheckStep_stored w st subscription server owner
      hpop huser hremove hwrite
    exact ⟨heff, stored_after_decrement _ _ subscription.currentServer server hs⟩

theorem currentUsers_decrement_floor_witness :
    quotaNode.currentUsers = 1 ∧
    populate quotaLedger.servers quotaSub.currentServer = some quotaNode ∧
    Effect.serverWrite "n1" 0
      ∈ (trafficLimitsCheckStep (observing 1200) (JobState.start quotaLedger) quotaSub).effects ∧
    (trafficLimitsCheckStep (observing 1200) (JobState.start quotaLedger)
        quotaSub).ledger.servers = [{ quotaNode with currentUsers := 0 }] ∧
    (stateOf (expiredSubscriptionsCheckStep (observing 0) (JobState.start dueLedger)
        (dueSub "d1" "u1"))).ledger.servers = [{ quotaNode with currentUsers := 0 }] := by
  have ht := (currentUsers_decrement_floor (observing 1200) (JobState.start quotaLedger)
    quotaSub).2.2.1 quotaNode quotaSub { uplink := 1200, downlink := 0, total := 1200 }
    rfl rfl rfl rfl (by decide) rfl rfl
  have he := (currentUsers_decrement_floor (observing 0) (JobState.start dueLedger)
    (dueSub "d1" "u1")).2.2.2 quotaNode { email := "a@b.c" } rfl rfl rfl rfl
  exact ⟨rfl, rfl, ht.1, ht.2.1, he.2.1⟩

/-! ### The scheduler jobs and the subscription invariant -/

/-- C11 (failing input): the daily subscription status update, run on a ledger whose
subscriptions all satisfy "an assigned node implies status active", stores the due
subscriptions with status expired and their node still assigned, so the invariant
no longer holds for them. -/
theorem subscriptionStatusUpdate_breaks_invariant :
    (∀ s ∈ dueLedger.subscriptions, s.nodeImpliesActive = true) ∧
    (subscriptionStatusUpdate (observing 0) 1 dueLedger).ledger.subscriptions
      = [{ dueSub "d1" "u1" with status := SubscriptionStatus.expired },
         { dueSub "d2" "u2" with status := SubscriptionStatus.expired }] ∧
    (∀ s ∈ (subscriptionStatusUpdate (observing 0) 1 dueLedger).ledger.subscriptions,
      s.currentServer = some "n1" ∧ s.status = SubscriptionStatus.expired ∧
      s.nodeImpliesActive = false) ∧
    (subscriptionStatusUpdate (observing 0) 1 dueLedger).effects
      = [Effect.subscriptionSave { dueSub "d1" "u1" with status := SubscriptionStatus.expired },
         Effect.subscriptionSave { dueSub "d2" "u2" with
           status := SubscriptionStatus.expired }] := by
  decide

/-- C20 (failing input): in the hourly sweep over two due subscriptions, when the
save of the first one fails the loop is left: the first subscription has been
removed from its node and the node count written, and the second subscription is
neither removed from its node nor saved. -/
theorem expiredSubscriptionsCheck_save_failure_stops :
    (expiredSubscriptionsCheck saveOfFirstFails 1 dueLedger).effects
      = [Effect.removeUser "n1" "d1", Effect.serverWrite "n1" 0,
         Effect.subscriptionSave { dueSub "d1" "u1" with
           status := SubscriptionStatus.expired
           currentServer := none }] ∧
    (expiredSubscriptionsCheck saveOfFirstFails 1 dueLedger).ledger.subscriptions
      = [dueSub "d1" "u1", dueSub "d2" "u2"] ∧
    (expiredSubscriptionsCheck (observing 0) 1 dueLedger).ledger.subscriptions
      = [{ dueSub "d1" "u1" with status := SubscriptionStatus.expired, currentServer := none },
         { dueSub "d2" "u2" with status := SubscriptionStatus.expired, currentServer := none }] := by
  decide

theorem expiredSubscriptionsCheckStep_cases (w : World) (st : JobState)
    (subscription : Subscription) (owner : User) (howner : subscription.user = some owner) :
    ∃ calls servers populated,
      (∀ doc, Effect.subscriptionSave doc ∉ calls) ∧
      (∀ server, populate st.populated subscription.currentServer = some server →
        calls.head? = some (Effect.removeUser server.id subscription.id)) ∧
      (populate st.populated subscription.currentServer = none → calls = []) ∧
      (∀ e ∈ calls, ∀ j, e.isNodeCallFor j = true → j = subscription.id) ∧
      expiredSubscriptionsCheckStep w st subscription
        = (if w.subscriptionSaveOk subscription.id then
            Except.ok
              { ledger :=
                  { subscriptions := (st.ledger.saveSubscription { subscription with
                      status := SubscriptionStatus.expired
                      currentServer := none }).subscriptions
                    servers := servers }
                populated := populated
                suspendedCount := st.suspendedCount
                effects := st.effects ++ calls ++ [Effect.subscriptionSave { subscription with
                  status := SubscriptionStatus.expired
                  currentServer := none }] }
          else
            Except.error
              { ledger := { subscriptions := st.ledger.subscriptions, servers := servers }
                populated := populated
                suspendedCount := st.suspendedCount
                effects := st.effects ++ calls ++ [Effect.subscriptionSave { subscription with
                  status := SubscriptionStatus.expired
                  currentServer := none }] }) := by
  unfold expiredSubscriptionsCheckStep
  cases hpop : populate st.populated subscription.currentServer with
  | none =>
    refine ⟨[], st.ledger.servers, st.populated, by simp, by simp, by simp, by simp, ?_⟩
    simp only [howner, Ledger.saveSubscription, List.append_nil]
  | some srv =>
    simp only [howner]
    cases hr : removeInboundUser (w.removeUser subscription.id) with
    | error e =>
      refine ⟨[Effect.removeUser srv.id subscription.id], st.ledger.servers, st.populated,
        by simp, by simp, by simp, by simp [Effect.isNodeCallFor], ?_⟩
      simp only [Ledger.saveSubscription]
    | ok a =>
      cases hw : w.serverWriteOk subscription.id
      · refine ⟨[Effect.removeUser srv.id subscription.id,
            Effect.serverWrite srv.id (decrementUsers srv.currentUsers)],
          st.ledger.servers,
          setCurrentUsers st.populated srv.id (decrementUsers srv.currentUsers),
          by simp, by simp, by simp, by simp [Effect.isNodeCallFor], ?_⟩
        simp only [Ledger.saveSubscription]
        cases hs : w.subscriptionSaveOk subscription.id <;> simp
      · refine ⟨[Effect.removeUser srv.id subscription.id,
            Effect.serverWrite srv.id (decrementUsers srv.currentUsers)],
          setCurrentUsers st.ledger.servers srv.id (decrementUsers srv.currentUsers),
          setCurrentUsers st.populated srv.id (decrementUsers srv.currentUsers),
          by simp, by simp, by simp, by simp [Effect.isNodeCallFor], ?_⟩
        simp only [Ledger.saveSubscription]
        cases hs : w.subscriptionSaveOk subscription.id <;> simp

/-- C12: an iteration of the hourly sweep on a subscription whose owner resolves
issues, after the calls for its node, a save of the subscription with status
expired and no node; when the subscription had a populated node the first call of
the iteration is the removal on that node, before the save. When the save succeeds
the iteration ends normally and the ledger holds the subscription as expired with
no node. -/
theorem expiredSubscriptionsCheckStep_expires (w : World) (st : JobState)
    (subscription : Subscription) (owner : User) (howner : subscription.user = some owner) :
    ∃ calls,
      (stateOf (expiredSubscriptionsCheckStep w st subscription)).effects
        = st.effects ++ calls ++ [Effect.subscriptionSave { subscription with
            status := SubscriptionStatus.expired
            currentServer := none }] ∧
      (∀ doc, Effect.subscriptionSave doc ∉ calls) ∧
      (∀ server, populate st.populated subscription.currentServer = some server →
        calls.head? = some (Effect.removeUser server.id subscription.id)) ∧
      (w.subscriptionSaveOk subscription.id = true →
        (∃ st', expiredSubscriptionsCheckStep w st subscription = Except.ok st') ∧
        ∀ d, st.ledger.findSubscriptionById subscription.id = some d →
          (stateOf (expiredSubscriptionsCheckStep w st subscription)).ledger.findSubscriptionById
              subscription.id
            = some { subscription with
                status := SubscriptionStatus.expired
                currentServer := none }) := by
  obtain ⟨calls, servers, populated, h1, h2, _, _, h5⟩ :=
    expiredSubscriptionsCheckStep_cases w st subscription owner howner
  refine ⟨calls, ?_, h1, h2, ?_⟩
  · rw [h5]
    cases hs : w.subscriptionSaveOk subscription.id <;> simp [stateOf]
  · intro hs
    rw [h5, hs]
    simp only [if_true]
    refine ⟨⟨_, rfl⟩, ?_⟩
    intro d hd
    simp only [stateOf]
    exact find_after_save _ _ d _ hd rfl

theorem expiredSubscriptionsCheckStep_expires_witness :
    ∃ calls,
      (stateOf (expiredSubscriptionsCheckStep (observing 0) (JobState.start dueLedger)
          (dueSub "d1" "u1"))).effects
        = (JobState.start dueLedger).effects ++ calls ++
          [Effect.subscriptionSave { dueSub "d1" "u1" with
            status := SubscriptionStatus.expired
            currentServer := none }] ∧
      (∀ doc, Effect.subscriptionSave doc ∉ calls) ∧
      (∀ server, populate (JobState.start dueLedger).populated (dueSub "d1" "u1").currentServer
          = some server →
        calls.head? = some (Effect.removeUser server.id (dueSub "d1" "u1").id)) ∧
      ((observing 0).subscriptionSaveOk (dueSub "d1" "u1").id = true →
        (∃ st', expiredSubscriptionsCheckStep (observing 0) (JobState.start dueLedger)
            (dueSub "d1" "u1") = Except.ok st') ∧
        ∀ d, (JobState.start dueLedger).ledger.findSubscriptionById (dueSub "d1" "u1").id
            = some d →
          (stateOf (expiredSubscriptionsCheckStep (observing 0) (JobState.start dueLedger)
              (dueSub "d1" "u1"))).ledger.findSubscriptionById (dueSub "d1" "u1").id
            = some { dueSub "d1" "u1" with
                status := SubscriptionStatus.expired
                currentServer := none }) :=
  expiredSubscriptionsCheckStep_expires (observing 0) (JobState.start dueLedger)
    (dueSub "d1" "u1") { email := "a@b.c" } rfl

/-! ### An expired subscription is left alone -/

theorem expiredSubscriptionsCheckStep_shape (w : World) (st : JobState) (sub : Subscription) :
    ∃ effs, (stateOf (expiredSubscriptionsCheckStep w st sub)).effects = st.effects ++ effs ∧
      (∀ e ∈ effs, ∀ j, e.isNodeCallFor j = true → j = sub.id) ∧
      ((stateOf (expiredSubscriptionsCheckStep w st sub)).ledger.subscriptions
          = st.ledger.subscriptions ∨
        ∃ doc, doc.id = sub.id ∧
          (stateOf (expiredSubscriptionsCheckStep w st sub)).ledger.subscriptions
            = (st.ledger.saveSubscription doc).subscriptions) := by
  cases hu : sub.user with
  | some owner =>
    obtain ⟨calls, servers, populated, _, _, _, h4, h5⟩ :=
      expiredSubscriptionsCheckStep_cases w st sub owner hu
    rw [h5]
    refine ⟨calls ++ [Effect.subscriptionSave { sub with
      status := SubscriptionStatus.expired
      currentServer := none }], ?_, ?_, ?_⟩
    · cases hs : w.subscriptionSaveOk sub.id <;> simp [stateOf]
    · intro e he j hj
      rcases List.mem_append.1 he with h | h
      · exact h4 e h j hj
      · simp at h
        rw [h] at hj
        simp [Effect.isNodeCallFor] at hj
    · cases hs : w.subscriptionSaveOk sub.id
      · exact Or.inl (by simp [stateOf])
      · exact Or.inr ⟨{ sub with
          status := SubscriptionStatus.expired
          currentServer := none }, rfl, by simp [stateOf]⟩
  | none =>
    unfold expiredSubscriptionsCheckStep
    cases hpop : populate st.populated sub.currentServer with
    | none =>
      simp only [hu]
      cases hs : w.subscriptionSaveOk sub.id
      · exact ⟨[Effect.subscriptionSave { sub with
            status := SubscriptionStatus.expired
            currentServer := none }], by simp [stateOf, hu],
          by simp [Effect.isNodeCallFor], Or.inl (by simp [stateOf])⟩
      · exact ⟨[Effect.subscriptionSave { sub with
            status := SubscriptionStatus.expired
            currentServer := none }], by simp [stateOf, hu],
          by simp [Effect.isNodeCallFor], Or.inr ⟨{ sub with
            status := SubscriptionStatus.expired
            currentServer := none }, rfl, by simp [stateOf, hu]⟩⟩
    | some srv =>
      simp only [hu, stateOf]
      exact ⟨[], by simp, by simp, Or.inl trivial⟩

theorem expiredSubscriptionsCheckStep_other (w : World) (i : String) (st : JobState)
    (s : Subscription) (hs : s.id ≠ i) :
    ((stateOf (expiredSubscriptionsCheckStep w st s)).ledger.subscriptions.filter
        (fun x => x.id == i) = st.ledger.subscriptions.filter (fun x => x.id == i)) ∧
    ∃ effs, (stateOf (expiredSubscriptionsCheckStep w st s)).effects = st.effects ++ effs ∧
      ∀ e ∈ effs, e.isNodeCallFor i = false := by
  obtain ⟨effs, he, hn, hl⟩ := expiredSubscriptionsCheckStep_shape w st s
  refine ⟨?_, effs, he, ?_⟩
  · rcases hl with h | ⟨doc, hd, h⟩
    · rw [h]
    · rw [h]
      exact filter_after_save _ _ _ (by rw [hd]; exact hs)
  · intro e hmem
    cases hb : e.isNodeCallFor i
    · rfl
    · exact absurd (hn e hmem i hb).symm hs

theorem expiredSubscriptionsLoop_other (w : World) (i : String) (subs : List Subscription)
    (st : JobState) (hsubs : ∀ s ∈ subs, s.id ≠ i) :
    ((expiredSubscriptionsLoop w subs st).ledger.subscriptions.filter (fun x => x.id == i)
        = st.ledger.subscriptions.filter (fun x => x.id == i)) ∧
    ∃ effs, (expiredSubscriptionsLoop w subs st).effects = st.effects ++ effs ∧
      ∀ e ∈ effs, e.isNodeCallFor i = false := by
  induction subs generalizing st with
  | nil => exact ⟨rfl, [], by simp [expiredSubscriptionsLoop], by simp⟩
  | cons s rest ih =>
    have hs : s.id ≠ i := hsubs s (by simp)
    have hrest : ∀ x ∈ rest, x.id ≠ i := fun x hx => hsubs x (by simp [hx])
    obtain ⟨hf1, effs1, he1, hn1⟩ := expiredSubscriptionsCheckStep_other w i st s hs
    simp only [expiredSubscriptionsLoop]
    cases hstep : expiredSubscriptionsCheckStep w st s with
    | error st1 =>
      rw [hstep] at hf1 he1
      exact ⟨hf1, effs1, he1, hn1⟩
    | ok st1 =>
      rw [hstep] at hf1 he1
      simp only [stateOf] at hf1 he1
      obtain ⟨hf2, effs2, he2, hn2⟩ := ih st1 hrest
      refine ⟨by rw [hf2, hf1], effs1 ++ effs2, by rw [he2, he1, List.append_assoc], ?_⟩
      intro e hmem
      rcases List.mem_append.1 hmem with h | h
      · exact hn1 e h
      · exact hn2 e h

theorem expiredSubscriptionsCheck_expired (w : World) (now : Int) (ledger : Ledger) (i : String)
    (hexp : ∀ s ∈ ledger.subscriptions, s.id = i → s.status = SubscriptionStatus.expired) :
    (expiredSubscriptionsCheck w now ledger).ledger.subscriptions.filter (fun s => s.id == i)
      = ledger.subscriptions.filter (fun s => s.id == i) ∧
    ∀ e ∈ (expiredSubscriptionsCheck w now ledger).effects, e.isNodeCallFor i = false := by
  have hsubs : ∀ s ∈ ledger.subscriptions.filter (fun s =>
      s.status == SubscriptionStatus.active &&
        (match s.expiresAt with
         | some t => decide (t ≤ now)
         | none => false)), s.id ≠ i := by
    intro s hs hid
    rw [List.mem_filter] at hs
    have h1 := hexp s hs.1 hid
    have h2 : s.status = SubscriptionStatus.active := by
      have := hs.2
      simp only [Bool.and_eq_true, beq_iff_eq] at this
      exact this.1
    rw [h1] at h2
    exact SubscriptionStatus.noConfusion h2
  obtain ⟨hf, effs, he, hn⟩ :=
    expiredSubscriptionsLoop_other w i _ (JobState.start ledger) hsubs
  refine ⟨hf, ?_⟩
  intro e hmem
  have e2 : (expiredSubscriptionsCheck w now ledger).effects = effs := by
    simpa [JobState.start] using he
  rw [e2] at hmem
  exact hn e hmem

/-- C13: once the stored subscription has status expired (as the sweep leaves it),
any number of later runs of the hourly sweep, at any times and whatever the nodes
would answer, do not select it: its stored record stays as it is and no node call
is issued for it. -/
theorem expired_subscription_skipped (runs : List (World × Int)) (ledger : Ledger) (i : String)
    (hexp : ∀ s ∈ ledger.subscriptions, s.id = i → s.status = SubscriptionStatus.expired) :
    (expiredSubscriptionsCheckRuns runs ledger).1.subscriptions.filter (fun s => s.id == i)
      = ledger.subscriptions.filter (fun s => s.id == i) ∧
    ∀ effects ∈ (expiredSubscriptionsCheckRuns runs ledger).2,
      ∀ e ∈ effects, e.isNodeCallFor i = false := by
  induction runs generalizing ledger with
  | nil => exact ⟨rfl, by simp [expiredSubscriptionsCheckRuns]⟩
  | cons r rest ih =>
    obtain ⟨w, now⟩ := r
    obtain ⟨hf, hn⟩ := expiredSubscriptionsCheck_expired w now ledger i hexp
    have hnext : ∀ s ∈ (expiredSubscriptionsCheck w now ledger).ledger.subscriptions, s.id = i →
        s.status = SubscriptionStatus.expired := by
      intro s hs hid
      have hmem : s ∈ (expiredSubscriptionsCheck w now ledger).ledger.subscriptions.filter
          (fun s => s.id == i) := by
        rw [List.mem_filter]
        exact ⟨hs, by simp [hid]⟩
      rw [hf, List.mem_filter] at hmem
      exact hexp s hmem.1 hid
    obtain ⟨hf2, hn2⟩ := ih (expiredSubscriptionsCheck w now ledger).ledger hnext
    simp only [expiredSubscriptionsCheckRuns]
    refine ⟨by rw [hf2, hf], ?_⟩
    intro effects hmem e he
    rcases List.mem_cons.1 hmem with h | h
    · rw [h] at he
      exact hn e he
    · exact hn2 effects h e he

theorem expired_subscription_skipped_witness :
    (∀ s ∈ (expiredSubscriptionsCheck (observing 0) 1 dueLedger).ledger.subscriptions,
      s.id = "d1" → s.status = SubscriptionStatus.expired) ∧
    (expiredSubscriptionsCheckRuns [(observing 0, 2), (observing 0, 3)]
        (expiredSubscriptionsCheck (observing 0) 1 dueLedger).ledger).1.subscriptions.filter
        (fun s => s.id == "d1")
      = (expiredSubscriptionsCheck (observing 0) 1 dueLedger).ledger.subscriptions.filter
          (fun s => s.id == "d1") ∧
    ∀ effects ∈ (expiredSubscriptionsCheckRuns [(observing 0, 2), (observing 0, 3)]
        (expiredSubscriptionsCheck (observing 0) 1 dueLedger).ledger).2,
      ∀ e ∈ effects, e.isNodeCallFor "d1" = false :=
  ⟨by decide,
   expired_subscription_skipped [(observing 0, 2), (observing 0, 3)]
    (expiredSubscriptionsCheck (observing 0) 1 dueLedger).ledger "d1" (by decide)⟩

/-! ### The loop over the subscriptions of one node -/

theorem getXrayEmail_of_owner (s : Subscription) (owner : User) (h : s.user = some owner) :
    ∃ email, s.getXrayEmail = Except.ok email := by
  unfold Subscription.getXrayEmail
  rw [h]
  exact ⟨_, rfl⟩

theorem syncSubscriptionStep_present (w : NodeWorld) (server : String)
    (tokens : List (Option String)) (st : SyncState) (s : Subscription)
    (h : some s.uuid ∈ tokens) :
    syncSubscriptionStep w server tokens st s = { st with synced := st.synced + 1 } := by
  unfold syncSubscriptionStep
  rw [if_pos h]

theorem syncSubscriptionStep_absent (w : NodeWorld) (server : String)
    (tokens : List (Option String)) (st : SyncState) (s : Subscription) (owner : User)
    (h : some s.uuid ∉ tokens) (ho : s.user = some owner) :
    syncSubscriptionStep w server tokens st s
      = match addVlessUser (w.addUser server s.id) with
        | .error _ =>
          { synced := st.synced, failed := st.failed + 1,
            calls := st.calls ++ [NodeCall.addVlessUser server s.id s.uuid] }
        | .ok _ =>
          { synced := st.synced + 1, failed := st.failed,
            calls := st.calls ++ [NodeCall.addVlessUser server s.id s.uuid] } := by
  obtain ⟨email, he⟩ := getXrayEmail_of_owner s owner ho
  unfold syncSubscriptionStep
  rw [if_neg h, he]

theorem syncSubscriptionStep_count (w : NodeWorld) (server : String)
    (tokens : List (Option String)) (st : SyncState) (s : Subscription) :
    (syncSubscriptionStep w server tokens st s).synced
        + (syncSubscriptionStep w server tokens st s).failed
      = st.synced + st.failed + 1 := by
  unfold syncSubscriptionStep
  split
  · simp only; omega
  · split
    · simp only; omega
    · split <;> simp only <;> omega

theorem syncSubscriptions_calls (w : NodeWorld) (server : String)
    (tokens : List (Option String)) (subs : List Subscription) (st : SyncState)
    (howners : ∀ s ∈ subs, s.user ≠ none) :
    (subs.foldl (syncSubscriptionStep w server tokens) st).calls
      = st.calls ++ (subs.filter (fun s => decide (some s.uuid ∉ tokens))).map
          (fun s => NodeCall.addVlessUser server s.id s.uuid) := by
  induction subs generalizing st with
  | nil => simp
  | cons s rest ih =>
    have hrest : ∀ x ∈ rest, x.user ≠ none := fun x hx => howners x (by simp [hx])
    rw [List.foldl_cons, ih _ hrest]
    by_cases h : some s.uuid ∈ tokens
    · rw [syncSubscriptionStep_present w server tokens st s h]
      simp [List.filter_cons, h]
    · obtain ⟨owner, ho⟩ := Option.ne_none_iff_exists'.1 (howners s (by simp))
      rw [syncSubscriptionStep_absent w server tokens st s owner h ho]
      cases addVlessUser (w.addUser server s.id) <;> simp [List.filter_cons, h]

theorem syncSubscriptions_count (w : NodeWorld) (server : String)
    (tokens : List (Option String)) (subs : List Subscription) (st : SyncState) :
    (subs.foldl (syncSubscriptionStep w server tokens) st).synced
        + (subs.foldl (syncSubscriptionStep w server tokens) st).failed
      = st.synced + st.failed + subs.length := by
  induction subs generalizing st with
  | nil => simp
  | cons s rest ih =>
    rw [List.foldl_cons, ih, syncSubscriptionStep_count, List.length_cons]
    omega

theorem syncSubscriptions_all_present (w : NodeWorld) (server : String)
    (tokens : List (Option String)) (subs : List Subscription) (st : SyncState)
    (hall : ∀ s ∈ subs, some s.uuid ∈ tokens) :
    subs.foldl (syncSubscriptionStep w server tokens) st
      = { st with synced := st.synced + subs.length } := by
  induction subs generalizing st with
  | nil => simp
  | cons s rest ih =>
    have hrest : ∀ x ∈ rest, some x.uuid ∈ tokens := fun x hx => hall x (by simp [hx])
    rw [List.foldl_cons, syncSubscriptionStep_present w server tokens st s (hall s (by simp)),
      ih _ hrest]
    simp only [List.length_cons]
    congr 1
    omega

theorem syncSubscriptions_all_fail (w : NodeWorld) (server : String)
    (subs : List Subscription) (st : SyncState)
    (hadd : ∀ s, addVlessUser (w.addUser server s) = Except.error ()) :
    (subs.foldl (syncSubscriptionStep w server []) st).synced = st.synced ∧
    (subs.foldl (syncSubscriptionStep w server []) st).failed = st.failed + subs.length := by
  induction subs generalizing st with
  | nil => simp
  | cons s rest ih =>
    rw [List.foldl_cons]
    obtain ⟨h1, h2⟩ := ih (syncSubscriptionStep w server [] st s)
    have hstep : (syncSubscriptionStep w server [] st s).synced = st.synced ∧
        (syncSubscriptionStep w server [] st s).failed = st.failed + 1 := by
      unfold syncSubscriptionStep
      rw [if_neg (List.not_mem_nil _), hadd]
      cases s.getXrayEmail <;> exact ⟨rfl, rfl⟩
    rw [h1, h2, hstep.1, hstep.2, List.length_cons]
    exact ⟨rfl, by omega⟩

theorem syncSubscriptions_all_sync (w : NodeWorld) (server : String)
    (tokens : List (Option String)) (subs : List Subscription) (st : SyncState)
    (howners : ∀ s ∈ subs, s.user ≠ none)
    (hadd : ∀ s, addVlessUser (w.addUser server s) = Except.ok ()) :
    (subs.foldl (syncSubscriptionStep w server tokens) st).synced = st.synced + subs.length ∧
    (subs.foldl (syncSubscriptionStep w server tokens) st).failed = st.failed := by
  induction subs generalizing st with
  | nil => simp
  | cons s rest ih =>
    have hrest : ∀ x ∈ rest, x.user ≠ none := fun x hx => howners x (by simp [hx])
    rw [List.foldl_cons]
    obtain ⟨h1, h2⟩ := ih (syncSubscriptionStep w server tokens st s) hrest
    have hstep : (syncSubscriptionStep w server tokens st s).synced = st.synced + 1 ∧
        (syncSubscriptionStep w server tokens st s).failed = st.failed := by
      by_cases h : some s.uuid ∈ tokens
      · rw [syncSubscriptionStep_present w server tokens st s h]
        exact ⟨rfl, rfl⟩
      · obtain ⟨owner, ho⟩ := Option.ne_none_iff_exists'.1 (howners s (by simp))
        rw [syncSubscriptionStep_absent w server tokens st s owner h ho, hadd]
        exact ⟨rfl, rfl⟩
    rw [h1, h2, hstep.1, hstep.2, List.length_cons]
    exact ⟨by omega, rfl⟩

/-! ### The map from nodes to subscriptions -/

theorem pushSubscription_rel (R : String → Subscription → Prop)
    (map : List (String × List Subscription)) (k : String) (s : Subscription)
    (hmap : ∀ g ∈ map, ∀ x ∈ g.2, R g.1 x) (hs : R k s) :
    ∀ g ∈ pushSubscription map k s, ∀ x ∈ g.2, R g.1 x := by
  induction map with
  | nil =>
    intro g hg x hx
    simp only [pushSubscription, List.mem_singleton] at hg
    subst hg
    simp only [List.mem_singleton] at hx
    subst hx
    exact hs
  | cons entry rest ih =>
    have hrest : ∀ g ∈ rest, ∀ x ∈ g.2, R g.1 x := fun g hg => hmap g (by simp [hg])
    intro g hg x hx
    unfold pushSubscription at hg
    by_cases hk : entry.1 = k
    · simp only [hk, beq_self_eq_true, if_true, List.mem_cons] at hg
      rcases hg with h | h
      · subst h
        simp only [List.mem_append, List.mem_singleton] at hx
        rcases hx with h2 | h2
        · have := hmap entry (by simp) x h2
          rw [hk] at this
          exact this
        · subst h2
          exact hs
      · exact hrest g h x hx
    · have hb : (entry.1 == k) = false := by simp [hk]
      simp only [hb, Bool.false_eq_true, if_false, List.mem_cons] at hg
      rcases hg with h | h
      · subst h
        exact hmap g (by simp) x hx
      · exact ih hrest g h x hx

theorem pushSubscriptions_rel (R : String → Subscription → Prop)
    (cs : List (Server × Subscription)) (map : List (String × List Subscription))
    (hmap : ∀ g ∈ map, ∀ x ∈ g.2, R g.1 x) (hcs : ∀ c ∈ cs, R c.1.id c.2) :
    ∀ g ∈ cs.foldl (fun map c => pushSubscription map c.1.id c.2) map,
      ∀ x ∈ g.2, R g.1 x := by
  induction cs generalizing map with
  | nil => simpa using hmap
  | cons c rest ih =>
    rw [List.foldl_cons]
    exact ih _ (pushSubscription_rel R map c.1.id c.2 hmap (hcs c (by simp)))
      (fun c2 h2 => hcs c2 (by simp [h2]))

theorem serverSubscriptionsMap_rel (R : String → Subscription → Prop) (ledger : Ledger)
    (hcs : ∀ c ∈ syncCandidates ledger, R c.1.id c.2) :
    ∀ g ∈ serverSubscriptionsMap ledger, ∀ x ∈ g.2, R g.1 x :=
  pushSubscriptions_rel R _ [] (by simp) hcs

theorem syncCandidates_mem (ledger : Ledger) (c : Server × Subscription)
    (h : c ∈ syncCandidates ledger) :
    c.2 ∈ ledger.subscriptions ∧ c.2.status = SubscriptionStatus.active ∧
    c.2.currentServer = some c.1.id := by
  unfold syncCandidates at h
  rw [List.mem_filterMap] at h
  obtain ⟨s, hs, hc⟩ := h
  rw [List.mem_filter] at hs
  cases hp : populate ledger.servers s.currentServer with
  | none => simp [hp] at hc
  | some server =>
    simp only [hp, Option.map_some', Option.some.injEq] at hc
    subst hc
    have hact : s.status = SubscriptionStatus.active := by
      have := hs.2
      simp only [Bool.and_eq_true, beq_iff_eq] at this
      exact this.1
    refine ⟨hs.1, hact, ?_⟩
    unfold populate at hp
    cases hr : s.currentServer with
    | none => simp [hr] at hp
    | some ref =>
      simp only [hr, Option.bind_some] at hp
      have := List.find?_some hp
      simp only [beq_iff_eq] at this
      simp [this]

theorem serverSubscriptionsMap_owners (ledger : Ledger)
    (howners : ∀ s ∈ ledger.subscriptions, s.user ≠ none) :
    ∀ g ∈ serverSubscriptionsMap ledger, ∀ x ∈ g.2, x.user ≠ none :=
  serverSubscriptionsMap_rel (fun _ x => x.user ≠ none) ledger
    (fun c hc => howners c.2 (syncCandidates_mem ledger c hc).1)

theorem syncNode_calls (w : NodeWorld) (st : SyncState) (entry : String × List Subscription)
    (howners : ∀ s ∈ entry.2, s.user ≠ none) :
    (syncNode w st entry).calls
      = st.calls ++ NodeCall.getInboundUsers entry.1 ::
          (entry.2.filter (fun s => decide (some s.uuid ∉
            reportedTokens w entry.1))).map
            (fun s => NodeCall.addVlessUser entry.1 s.id s.uuid) := by
  unfold syncNode
  simp only
  rw [syncSubscriptions_calls w entry.1 _ entry.2 _ howners]
  simp [reportedTokens]

theorem syncNodes_calls (w : NodeWorld) (map : List (String × List Subscription))
    (st : SyncState) (howners : ∀ g ∈ map, ∀ s ∈ g.2, s.user ≠ none) :
    (map.foldl (syncNode w) st).calls
      = st.calls ++ map.flatMap (fun entry =>
          NodeCall.getInboundUsers entry.1 ::
            (entry.2.filter (fun s => decide (some s.uuid ∉
              reportedTokens w entry.1))).map
              (fun s => NodeCall.addVlessUser entry.1 s.id s.uuid)) := by
  induction map generalizing st with
  | nil => simp
  | cons entry rest ih =>
    rw [List.foldl_cons, ih _ (fun g hg => howners g (by simp [hg])),
      syncNode_calls w st entry (howners entry (by simp))]
    simp

/-! ### Reconciliation of one node -/

/-- C14 (failing input): node `n1` holds the active subscriptions `a1` and `a2` and
answers the list call with an object whose `users` hold the identity `ua1`. The sync
methods read the object as an array, build an empty uuid set and issue an add call
for `a1`, whose uuid the node reports, as well as for `a2`, in `syncServer` and in
`syncAllUsers` alike; with the same identity answered as an array the add call is
issued for `a2` only. -/
theorem sync_readds_reported_identity :
    firstReported.getInboundUsers "n1"
      = SdkReply.result true
          (some (InboundData.object [{ uuid := some "ua1", id := none }])) ∧
    reportedTokens firstReported "n1" = [] ∧
    syncServer firstReported fleetLedger (some (fleetNode "n1"))
      = Except.ok { synced := 2, failed := 0, total := 2,
                    calls := [NodeCall.getInboundUsers "n1",
                              NodeCall.addVlessUser "n1" "a1" "ua1",
                              NodeCall.addVlessUser "n1" "a2" "ua2"] } ∧
    (syncAllUsers firstReported fleetLedger).calls
      = [NodeCall.getInboundUsers "n1", NodeCall.addVlessUser "n1" "a1" "ua1",
         NodeCall.addVlessUser "n1" "a2" "ua2",
         NodeCall.getInboundUsers "n2", NodeCall.addVlessUser "n2" "b1" "ub1",
         NodeCall.addVlessUser "n2" "b2" "ub2",
         NodeCall.getInboundUsers "n3", NodeCall.addVlessUser "n3" "c1" "uc1"] ∧
    syncServer firstReportedAsArray fleetLedger (some (fleetNode "n1"))
      = Except.ok { synced := 2, failed := 0, total := 2,
                    calls := [NodeCall.getInboundUsers "n1",
                              NodeCall.addVlessUser "n1" "a2" "ua2"] } :=
  ⟨rfl, rfl, rfl, rfl, rfl⟩

/-- C15 (failing input): every node answers the list call with an object whose
`users` hold the identities of all subscriptions of the fleet, so that node `n1` is
consistent with the ledger. `syncServer` builds an empty uuid set and issues an add
call for each of the two subscriptions of the node: when the node accepts the adds
it returns `synced = 2` after two add calls, when the node refuses them it returns
`synced = 0` and `failed = 2`; a second pass on the unchanged ledger does the same.
With the same identities answered as an array it issues the list call only. -/
theorem syncServer_consistent_node_readds :
    (∀ s ∈ fleetLedger.subscriptions, ∃ u ∈ fleetUsers, u.uuid = some s.uuid) ∧
    allReported.getInboundUsers "n1"
      = SdkReply.result true (some (InboundData.object fleetUsers)) ∧
    syncServer allReported fleetLedger (some (fleetNode "n1"))
      = Except.ok { synced := 2, failed := 0, total := 2,
                    calls := [NodeCall.getInboundUsers "n1",
                              NodeCall.addVlessUser "n1" "a1" "ua1",
                              NodeCall.addVlessUser "n1" "a2" "ua2"] } ∧
    syncServer allReportedAddRefused fleetLedger (some (fleetNode "n1"))
      = Except.ok { synced := 0, failed := 2, total := 2,
                    calls := [NodeCall.getInboundUsers "n1",
                              NodeCall.addVlessUser "n1" "a1" "ua1",
                              NodeCall.addVlessUser "n1" "a2" "ua2"] } ∧
    syncServer allReportedAsArray fleetLedger (some (fleetNode "n1"))
      = Except.ok { synced := 2, failed := 0, total := 2,
                    calls := [NodeCall.getInboundUsers "n1"] } :=
  ⟨by decide, rfl, rfl, rfl, rfl⟩

/-- C16 (as stated, refuted): an add request answered with a result that is not ok
makes `addVlessUser` raise, and `syncServer` does not count the subscription as
synced: for the one subscription of node `n3` it returns `synced = 0`. -/
theorem conflict_counted_as_synced_false :
    ¬ (addVlessUser (SdkReply.result false none) = Except.ok () ∨
       ∃ r, syncServer addConflicts fleetLedger (some (fleetNode "n3")) = Except.ok r ∧
         r.synced = 1 ∧ r.failed = 0) := by
  rintro (h | ⟨r, hr, hs, _⟩)
  · exact Except.noConfusion h
  · have e : syncServer addConflicts fleetLedger (some (fleetNode "n3"))
        = Except.ok { synced := 0, failed := 1, total := 1,
                      calls := [NodeCall.getInboundUsers "n3",
                                NodeCall.addVlessUser "n3" "c1" "uc1"] } := by
      rfl
    rw [e] at hr
    cases hr
    exact absurd hs (by decide)

/-- C16 (amended): an add request answered with a result that is not ok makes
`addVlessUser` raise; the loop body issues the add call for a subscription whose
uuid is not reported, catches the failure, counts the subscription in `failed` and
leaves `synced` as it was. -/
theorem conflict_counted_as_failed (w : NodeWorld) (server : String)
    (tokens : List (Option String)) (st : SyncState) (s : Subscription) (owner : User)
    (data : Option Unit) (habsent : some s.uuid ∉ tokens) (howner : s.user = some owner)
    (hreply : w.addUser server s.id = SdkReply.result false data) :
    addVlessUser (w.addUser server s.id) = Except.error () ∧
    syncSubscriptionStep w server tokens st s
      = { synced := st.synced, failed := st.failed + 1,
          calls := st.calls ++ [NodeCall.addVlessUser server s.id s.uuid] } := by
  have hadd : addVlessUser (w.addUser server s.id) = Except.error () := by
    rw [hreply]
    rfl
  refine ⟨hadd, ?_⟩
  rw [syncSubscriptionStep_absent w server tokens st s owner habsent howner, hadd]

theorem conflict_counted_as_failed_witness :
    addVlessUser (addConflicts.addUser "n3" (fleetSub "c1" "uc1" "n3").id) = Except.error () ∧
    syncSubscriptionStep addConflicts "n3" [] { synced := 0, failed := 0, calls := [] }
        (fleetSub "c1" "uc1" "n3")
      = { synced := 0, failed := 0 + 1,
          calls := [] ++ [NodeCall.addVlessUser "n3" (fleetSub "c1" "uc1" "n3").id
            (fleetSub "c1" "uc1" "n3").uuid] } :=
  conflict_counted_as_failed addConflicts "n3" [] { synced := 0, failed := 0, calls := [] }
    (fleetSub "c1" "uc1" "n3") { email := "a@b.c" } none (by decide) rfl rfl

/-! ### The cleanup pass -/

theorem uuidToEmailEntries_keys (subs : List Subscription) (entries : List (String × String))
    (h : uuidToEmailEntries subs = Except.ok entries) :
    entries.map (fun entry => entry.1) = subs.map (fun s => s.uuid) := by
  induction subs generalizing entries with
  | nil =>
    simp only [uuidToEmailEntries, Except.ok.injEq] at h
    subst h
    rfl
  | cons s rest ih =>
    unfold uuidToEmailEntries at h
    cases he : s.getXrayEmail with
    | error e => simp [he] at h
    | ok email =>
      cases hr : uuidToEmailEntries rest with
      | error e => simp [he, hr] at h
      | ok tail =>
        simp only [he, hr, Except.ok.injEq] at h
        subst h
        simp [ih tail hr]

theorem uuidToEmailEntries_of_owners (subs : List Subscription)
    (howners : ∀ s ∈ subs, s.user ≠ none) :
    ∃ entries, uuidToEmailEntries subs = Except.ok entries := by
  induction subs with
  | nil => exact ⟨[], rfl⟩
  | cons s rest ih =>
    obtain ⟨owner, ho⟩ := Option.ne_none_iff_exists'.1 (howners s (by simp))
    obtain ⟨email, he⟩ := getXrayEmail_of_owner s owner ho
    obtain ⟨tail, ht⟩ := ih (fun x hx => howners x (by simp [hx]))
    exact ⟨(s.uuid, email) :: tail, by simp [uuidToEmailEntries, he, ht]⟩

theorem removalEmail_of_orphan (entries : List (String × String)) (uuid : Option String)
    (h : uuid ∉ (entries.map (fun entry => entry.1)).map some) :
    removalEmail entries uuid = uuid := by
  unfold removalEmail uuidToEmailGet
  cases uuid with
  | none => rfl
  | some u =>
    have hfind : entries.reverse.find? (fun entry => entry.1 == u) = none := by
      rw [List.find?_eq_none]
      intro x hx hxu
      apply h
      simp only [List.map_map, List.mem_map, Function.comp_apply, Option.some.injEq]
      exact ⟨x, List.mem_reverse.1 hx, by simpa using hxu⟩
    simp [hfind]

theorem cleanupSteps_calls (w : NodeWorld) (server : String) (dbUUIDs : List String)
    (entries : List (String × String)) (tokens : List (Option String)) (st : CleanupState)
    (hkeys : entries.map (fun entry => entry.1) = dbUUIDs) :
    (tokens.foldl (cleanupStep w server dbUUIDs entries) st).calls
      = st.calls ++ (tokens.filter (fun u => decide (u ∉ dbUUIDs.map some))).map
          (fun u => NodeCall.removeInboundUser server u) ∧
    (tokens.foldl (cleanupStep w server dbUUIDs entries) st).removed
      = st.removed + ((tokens.filter (fun u => decide (u ∉ dbUUIDs.map some))).filter
          (fun u => match removeInboundUser (w.removeUser server u) with
            | .ok _ => true
            | .error _ => false)).length := by
  induction tokens generalizing st with
  | nil => simp
  | cons u rest ih =>
    rw [List.foldl_cons]
    obtain ⟨h1, h2⟩ := ih (cleanupStep w server dbUUIDs entries st u)
    rw [h1, h2]
    by_cases hu : u ∈ dbUUIDs.map some
    · have hstep : cleanupStep w server dbUUIDs entries st u = st := by
        unfold cleanupStep
        rw [if_pos hu]
      have hp : decide (u ∉ dbUUIDs.map some) = false := decide_eq_false (not_not.2 hu)
      rw [hstep]
      simp only [List.filter_cons, hp, Bool.false_eq_true, if_false]
      exact ⟨trivial, trivial⟩
    · have hemail : removalEmail entries u = u :=
        removalEmail_of_orphan entries u (by rw [hkeys]; exact hu)
      have hstep : cleanupStep w server dbUUIDs entries st u
          = match removeInboundUser (w.removeUser server u) with
            | .error _ =>
              { removed := st.removed,
                calls := st.calls ++ [NodeCall.removeInboundUser server u] }
            | .ok _ =>
              { removed := st.removed + 1,
                calls := st.calls ++ [NodeCall.removeInboundUser server u] } := by
        unfold cleanupStep
        rw [if_neg hu]
        simp only [hemail]
      have hp : decide (u ∉ dbUUIDs.map some) = true := decide_eq_true hu
      rw [hstep]
      cases hr : removeInboundUser (w.removeUser server u)
      · simp only [List.filter_cons, hp, hr, if_true, Bool.false_eq_true, if_false,
          List.map_cons, List.append_assoc, List.singleton_append, List.length_cons]
        exact ⟨trivial, trivial⟩
      · simp only [List.filter_cons, hp, hr, if_true, Bool.false_eq_true, if_false,
          List.map_cons, List.append_assoc, List.singleton_append, List.length_cons]
        refine ⟨trivial, ?_⟩
        omega

theorem dbSubscriptions_owners (ledger : Ledger) (serverId : String)
    (howners : ∀ s ∈ ledger.subscriptions, s.user ≠ none) :
    ∃ entries, uuidToEmailEntries (dbSubscriptions ledger serverId) = Except.ok entries ∧
      entries.map (fun entry => entry.1) = activeUUIDs ledger serverId := by
  obtain ⟨entries, he⟩ := uuidToEmailEntries_of_owners (dbSubscriptions ledger serverId)
    (fun s hs => howners s (List.mem_filter.1 hs).1)
  exact ⟨entries, he, uuidToEmailEntries_keys _ _ he⟩

theorem cleanupServer_of_object (w : NodeWorld) (ledger : Ledger) (serverId : String)
    (server : Server) (users : List InboundUser)
    (hfind : ledger.servers.find? (fun s => s.id == serverId) = some server)
    (hreply : getInboundUsers (w.getInboundUsers server.id) = InboundData.object users) :
    cleanupServer w ledger serverId = Except.error [NodeCall.getInboundUsers server.id] := by
  unfold cleanupServer
  simp only [hfind, hreply, xrayUUIDs]

theorem cleanupServer_of_array (w : NodeWorld) (ledger : Ledger) (serverId : String)
    (server : Server) (users : List InboundUser)
    (hfind : ledger.servers.find? (fun s => s.id == serverId) = some server)
    (howners : ∀ s ∈ ledger.subscriptions, s.user ≠ none)
    (hreply : getInboundUsers (w.getInboundUsers server.id) = InboundData.array users) :
    cleanupServer w ledger serverId
      = Except.ok
          { removed := (((users.map InboundUser.token).filter (fun u =>
              decide (u ∉ (activeUUIDs ledger serverId).map some))).filter
              (fun u => match removeInboundUser (w.removeUser server.id u) with
                | .ok _ => true
                | .error _ => false)).length
            calls := NodeCall.getInboundUsers server.id ::
              ((users.map InboundUser.token).filter (fun u =>
                decide (u ∉ (activeUUIDs ledger serverId).map some))).map
                (fun u => NodeCall.removeInboundUser server.id u) } := by
  obtain ⟨entries, he, hkeys⟩ := dbSubscriptions_owners ledger serverId howners
  obtain ⟨h1, h2⟩ := cleanupSteps_calls w server.id (activeUUIDs ledger serverId) entries
    (users.map InboundUser.token)
    { removed := 0, calls := [NodeCall.getInboundUsers server.id] } hkeys
  unfold cleanupServer
  simp only [hfind, hreply, xrayUUIDs, he]
  congr 1
  cases hfold : List.foldl _ _ _ with
  | mk removed calls =>
    rw [hfold] at h1 h2
    simp only at h1 h2
    rw [h1, h2]
    simp

/-- C17 (failing input): node `n1` answers the list call with an object whose `users`
hold the unknown identity `ux` and the identities `ua2` and `ua1` of the two active
subscriptions of the node. `cleanupServer` throws at line 145 with the list call as
its only node call: it issues no removal for `ux` and returns no count. With the same
identities answered as an array it removes `ux` only and returns `removed = 1`. -/
theorem cleanupServer_throws_on_object_reply :
    reportsOrphan.getInboundUsers "n1"
      = SdkReply.result true (some (InboundData.object orphanUsers)) ∧
    orphanUsers.map InboundUser.token = [some "ux", some "ua2", some "ua1"] ∧
    activeUUIDs fleetLedger "n1" = ["ua1", "ua2"] ∧
    cleanupServer reportsOrphan fleetLedger "n1"
      = Except.error [NodeCall.getInboundUsers "n1"] ∧
    cleanupServer reportsOrphanAsArray fleetLedger "n1"
      = Except.ok { removed := 1,
                    calls := [NodeCall.getInboundUsers "n1",
                              NodeCall.removeInboundUser "n1" (some "ux")] } :=
  ⟨rfl, rfl, rfl, rfl, rfl⟩

/-- C18 (as stated, refuted): the set that `cleanupServer` subtracts from the reported
tokens is built from the active subscriptions of the node only. In `staleLedger` the
expired subscription `e1` is still assigned to node `n1`; its token `ue1` is not in
the set, and the loop body issues a removal for it. -/
theorem cleanupServer_spares_inactive_false :
    ¬ ((∀ s ∈ staleLedger.subscriptions, s.currentServer = some "n1" →
          s.uuid ∈ activeUUIDs staleLedger "n1") ∨
       (∀ entries st,
          uuidToEmailEntries (dbSubscriptions staleLedger "n1") = Except.ok entries →
          NodeCall.removeInboundUser "n1" (some "ue1")
            ∉ (cleanupStep reportsStale "n1" (activeUUIDs staleLedger "n1") entries st
                (some "ue1")).calls)) := by
  rintro (h | h)
  · exact absurd (h { fleetSub "e1" "ue1" "n1" with status := SubscriptionStatus.expired }
      (by decide) rfl) (by decide)
  · exact h [("ua1", "a_a1@b.c")] { removed := 0, calls := [] } rfl (by decide)

/-- C18 (amended): the set that `cleanupServer` subtracts holds exactly the uuids of
the active subscriptions assigned to the node, so that the token of a subscription of
the node that is not active is outside it unless an active subscription of the node
has the same uuid. With the owners resolving the label map is built, and the loop
body issues a removal for every token outside the set and for none inside it; when
the list call gives an array, the calls of `cleanupServer` are the list call and one
removal for each token of the array outside the set, in order. -/
theorem cleanupServer_orphans (w : NodeWorld) (ledger : Ledger) (serverId : String)
    (server : Server)
    (hfind : ledger.servers.find? (fun s => s.id == serverId) = some server)
    (howners : ∀ s ∈ ledger.subscriptions, s.user ≠ none) :
    (∀ u, u ∈ activeUUIDs ledger serverId ↔
      ∃ s ∈ ledger.subscriptions, s.currentServer = some serverId ∧
        s.status = SubscriptionStatus.active ∧ s.uuid = u) ∧
    (∃ entries, uuidToEmailEntries (dbSubscriptions ledger serverId) = Except.ok entries ∧
      ∀ st token,
        (token ∉ (activeUUIDs ledger serverId).map some →
          (cleanupStep w server.id (activeUUIDs ledger serverId) entries st token).calls
            = st.calls ++ [NodeCall.removeInboundUser server.id token]) ∧
        (token ∈ (activeUUIDs ledger serverId).map some →
          cleanupStep w server.id (activeUUIDs ledger serverId) entries st token = st)) ∧
    (∀ users, getInboundUsers (w.getInboundUsers server.id) = InboundData.array users →
      ∃ r, cleanupServer w ledger serverId = Except.ok r ∧
        r.calls = NodeCall.getInboundUsers server.id ::
          ((users.map InboundUser.token).filter (fun u =>
            decide (u ∉ (activeUUIDs ledger serverId).map some))).map
            (fun u => NodeCall.removeInboundUser server.id u)) := by
  obtain ⟨entries, he, hkeys⟩ := dbSubscriptions_owners ledger serverId howners
  refine ⟨?_, ⟨entries, he, ?_⟩, ?_⟩
  · intro u
    unfold activeUUIDs dbSubscriptions
    rw [List.mem_map]
    constructor
    · rintro ⟨s, hs, rfl⟩
      rw [List.mem_filter] at hs
      have h2 := hs.2
      simp only [Bool.and_eq_true, beq_iff_eq] at h2
      exact ⟨s, hs.1, h2.1, h2.2, rfl⟩
    · rintro ⟨s, hs, h1, h2, rfl⟩
      refine ⟨s, List.mem_filter.2 ⟨hs, ?_⟩, rfl⟩
      simp only [Bool.and_eq_true, beq_iff_eq]
      exact ⟨h1, h2⟩
  · intro st token
    constructor
    · intro hout
      have hemail : removalEmail entries token = token :=
        removalEmail_of_orphan entries token (by rw [hkeys]; exact hout)
      unfold cleanupStep
      rw [if_neg hout]
      simp only [hemail]
      cases removeInboundUser (w.removeUser server.id token) <;> rfl
    · intro hin
      unfold cleanupStep
      rw [if_pos hin]
  · intro users hreply
    exact ⟨_, cleanupServer_of_array w ledger serverId server users hfind howners hreply, rfl⟩

theorem cleanupServer_orphans_witness :
    ("ue1" ∈ activeUUIDs staleLedger "n1" ↔
      ∃ s ∈ staleLedger.subscriptions, s.currentServer = some "n1" ∧
        s.status = SubscriptionStatus.active ∧ s.uuid = "ue1") ∧
    "ue1" ∉ activeUUIDs staleLedger "n1" ∧
    ∃ entries, uuidToEmailEntries (dbSubscriptions staleLedger "n1") = Except.ok entries ∧
      ∀ st token,
        (token ∉ (activeUUIDs staleLedger "n1").map some →
          (cleanupStep reportsStale (fleetNode "n1").id (activeUUIDs staleLedger "n1")
              entries st token).calls
            = st.calls ++ [NodeCall.removeInboundUser (fleetNode "n1").id token]) ∧
        (token ∈ (activeUUIDs staleLedger "n1").map some →
          cleanupStep reportsStale (fleetNode "n1").id (activeUUIDs staleLedger "n1")
            entries st token = st) :=
  ⟨(cleanupServer_orphans reportsStale staleLedger "n1" (fleetNode "n1") rfl
      (by decide)).1 "ue1",
   by decide,
   (cleanupServer_orphans reportsStale staleLedger "n1" (fleetNode "n1") rfl
      (by decide)).2.1⟩

/-! ### Failure isolation between nodes -/

theorem addVlessUser_of_fails (reply : SdkReply Unit) (h : reply.fails = true) :
    addVlessUser reply = Except.error () := by
  cases reply with
  | throws => rfl
  | result isOk data =>
    simp only [SdkReply.fails, Bool.not_eq_true'] at h
    simp [addVlessUser, h]

theorem addVlessUser_of_not_fails (reply : SdkReply Unit) (h : reply.fails = false) :
    addVlessUser reply = Except.ok () := by
  cases reply with
  | throws => simp [SdkReply.fails] at h
  | result isOk data =>
    simp only [SdkReply.fails, Bool.not_eq_false'] at h
    simp [addVlessUser, h]

theorem getInboundUsers_of_fails (reply : SdkReply InboundData)
    (h : reply.fails = true) : getInboundUsers reply = InboundData.array [] := by
  cases reply with
  | throws => rfl
  | result isOk data =>
    simp only [SdkReply.fails, Bool.not_eq_true'] at h
    simp [getInboundUsers, h]

theorem syncNode_counts (w : NodeWorld) (n2 : String) (st : SyncState)
    (entry : String × List Subscription)
    (howners : ∀ s ∈ entry.2, s.user ≠ none)
    (hlist : (w.getInboundUsers n2).fails = true)
    (hdown : ∀ s, (w.addUser n2 s).fails = true)
    (hup : ∀ n, n ≠ n2 → ∀ s, (w.addUser n s).fails = false) :
    (syncNode w st entry).synced
        = st.synced + (if entry.1 != n2 then entry.2.length else 0) ∧
    (syncNode w st entry).failed
        = st.failed + (if entry.1 == n2 then entry.2.length else 0) := by
  unfold syncNode
  simp only
  by_cases hn : entry.1 = n2
  · have hb1 : (entry.1 != n2) = false := by simp [hn]
    have hb2 : (entry.1 == n2) = true := by simp [hn]
    rw [hb1, hb2, hn, getInboundUsers_of_fails _ hlist]
    obtain ⟨h1, h2⟩ := syncSubscriptions_all_fail w n2 entry.2
      { st with calls := st.calls ++ [NodeCall.getInboundUsers n2] }
      (fun s => addVlessUser_of_fails _ (hdown s))
    have hnone : existingUUIDs (InboundData.array []) = [] := rfl
    rw [hnone, h1, h2]
    simp
  · have hb1 : (entry.1 != n2) = true := by simp [hn]
    have hb2 : (entry.1 == n2) = false := by simp [hn]
    rw [hb1, hb2]
    obtain ⟨h1, h2⟩ := syncSubscriptions_all_sync w entry.1
      (reportedTokens w entry.1) entry.2
      { st with calls := st.calls ++ [NodeCall.getInboundUsers entry.1] } howners
      (fun s => addVlessUser_of_not_fails _ (hup entry.1 hn s))
    unfold reportedTokens at h1 h2
    rw [h1, h2]
    simp

theorem syncNodes_counts (w : NodeWorld) (n2 : String)
    (map : List (String × List Subscription)) (st : SyncState)
    (howners : ∀ g ∈ map, ∀ s ∈ g.2, s.user ≠ none)
    (hlist : (w.getInboundUsers n2).fails = true)
    (hdown : ∀ s, (w.addUser n2 s).fails = true)
    (hup : ∀ n, n ≠ n2 → ∀ s, (w.addUser n s).fails = false) :
    (map.foldl (syncNode w) st).synced = st.synced + countOnNodes (fun n => n != n2) map ∧
    (map.foldl (syncNode w) st).failed = st.failed + countOnNodes (fun n => n == n2) map := by
  induction map generalizing st with
  | nil => simp [countOnNodes]
  | cons entry rest ih =>
    rw [List.foldl_cons]
    obtain ⟨h1, h2⟩ := ih (syncNode w st entry) (fun g hg => howners g (by simp [hg]))
    obtain ⟨e1, e2⟩ := syncNode_counts w n2 st entry (howners entry (by simp)) hlist hdown hup
    rw [h1, h2, e1, e2]
    simp only [countOnNodes, List.map_cons, List.sum_cons]
    constructor <;> omega

theorem countOnNodes_push (p : String → Bool) (map : List (String × List Subscription))
    (k : String) (s : Subscription) :
    countOnNodes p (pushSubscription map k s)
      = countOnNodes p map + (if p k then 1 else 0) := by
  induction map with
  | nil => simp [countOnNodes, pushSubscription]
  | cons entry rest ih =>
    unfold pushSubscription
    by_cases hk : entry.1 = k
    · simp only [hk, beq_self_eq_true, if_true, countOnNodes, List.map_cons, List.sum_cons,
        List.length_append, List.length_singleton]
      split <;> omega
    · have hb : (entry.1 == k) = false := by simp [hk]
      simp only [hb, Bool.false_eq_true, if_false]
      simp only [countOnNodes, List.map_cons, List.sum_cons] at ih ⊢
      rw [ih]
      omega

theorem countOnNodes_fold (p : String → Bool) (cs : List (Server × Subscription))
    (map : List (String × List Subscription)) :
    countOnNodes p (cs.foldl (fun map c => pushSubscription map c.1.id c.2) map)
      = countOnNodes p map + (cs.filter (fun c => p c.1.id)).length := by
  induction cs generalizing map with
  | nil => simp
  | cons c rest ih =>
    rw [List.foldl_cons, ih, countOnNodes_push]
    cases hp : p c.1.id
    · simp [List.filter_cons, hp]
    · simp [List.filter_cons, hp]
      omega

theorem pushSubscription_mem_new (map : List (String × List Subscription)) (k : String)
    (s : Subscription) : ∃ g ∈ pushSubscription map k s, g.1 = k ∧ s ∈ g.2 := by
  induction map with
  | nil => exact ⟨(k, [s]), by simp [pushSubscription], rfl, by simp⟩
  | cons entry rest ih =>
    unfold pushSubscription
    by_cases hk : entry.1 = k
    · exact ⟨(entry.1, entry.2 ++ [s]), by simp [hk], hk, by simp⟩
    · have hb : (entry.1 == k) = false := by simp [hk]
      obtain ⟨g, hg, h1, h2⟩ := ih
      exact ⟨g, by simp [hb, hg], h1, h2⟩

theorem pushSubscription_mem_old (map : List (String × List Subscription)) (k : String)
    (s : Subscription) (g : String × List Subscription) (x : Subscription)
    (hg : g ∈ map) (hx : x ∈ g.2) :
    ∃ g2 ∈ pushSubscription map k s, g2.1 = g.1 ∧ x ∈ g2.2 := by
  induction map with
  | nil => simp at hg
  | cons entry rest ih =>
    unfold pushSubscription
    by_cases hk : entry.1 = k
    · rcases List.mem_cons.1 hg with h | h
      · subst h
        exact ⟨(g.1, g.2 ++ [s]), by simp [hk], rfl, by simp [hx]⟩
      · exact ⟨g, by simp [hk, h], rfl, hx⟩
    · have hb : (entry.1 == k) = false := by simp [hk]
      rcases List.mem_cons.1 hg with h | h
      · subst h
        exact ⟨g, by simp [hb], rfl, hx⟩
      · obtain ⟨g2, hg2, h1, h2⟩ := ih h
        exact ⟨g2, by simp [hb, hg2], h1, h2⟩

theorem pushSubscriptions_mem (cs : List (Server × Subscription))
    (map : List (String × List Subscription)) :
    (∀ g ∈ map, ∀ x ∈ g.2,
      ∃ g2 ∈ cs.foldl (fun map c => pushSubscription map c.1.id c.2) map,
        g2.1 = g.1 ∧ x ∈ g2.2) ∧
    (∀ c ∈ cs, ∃ g2 ∈ cs.foldl (fun map c => pushSubscription map c.1.id c.2) map,
        g2.1 = c.1.id ∧ c.2 ∈ g2.2) := by
  induction cs generalizing map with
  | nil => exact ⟨fun g hg x hx => ⟨g, hg, rfl, hx⟩, by simp⟩
  | cons c rest ih =>
    obtain ⟨ih1, ih2⟩ := ih (pushSubscription map c.1.id c.2)
    rw [List.foldl_cons]
    constructor
    · intro g hg x hx
      obtain ⟨g1, hg1, e1, hx1⟩ := pushSubscription_mem_old map c.1.id c.2 g x hg hx
      obtain ⟨g2, hg2, e2, hx2⟩ := ih1 g1 hg1 x hx1
      exact ⟨g2, hg2, e2.trans e1, hx2⟩
    · intro c2 hc2
      rcases List.mem_cons.1 hc2 with h | h
      · subst h
        obtain ⟨g1, hg1, e1, hx1⟩ := pushSubscription_mem_new map c2.1.id c2.2
        obtain ⟨g2, hg2, e2, hx2⟩ := ih1 g1 hg1 c2.2 hx1
        exact ⟨g2, hg2, e2.trans e1, hx2⟩
      · exact ih2 c2 h

/-- C19: in `syncAllUsers`, when every control call to node `n2` fails (the list call
and every add) while the adds on the other nodes succeed, and the owners resolve:
`failed` is the number of processed subscriptions assigned to `n2`, `synced` is the
number assigned to the other nodes, so `synced + failed` is the number processed, and
for each subscription on another node whose uuid that node does not report the add
call is issued. -/
theorem syncAllUsers_isolates_node (w : NodeWorld) (ledger : Ledger) (n2 : String)
    (howners : ∀ s ∈ ledger.subscriptions, s.user ≠ none)
    (hlist : (w.getInboundUsers n2).fails = true)
    (hdown : ∀ s, (w.addUser n2 s).fails = true)
    (hup : ∀ n, n ≠ n2 → ∀ s, (w.addUser n s).fails = false) :
    (syncAllUsers w ledger).failed
      = ((syncCandidates ledger).filter (fun c => c.1.id == n2)).length ∧
    (syncAllUsers w ledger).synced
      = ((syncCandidates ledger).filter (fun c => c.1.id != n2)).length ∧
    (syncAllUsers w ledger).synced + (syncAllUsers w ledger).failed
      = (syncCandidates ledger).length ∧
    (∀ c ∈ syncCandidates ledger, c.1.id ≠ n2 →
      some c.2.uuid ∉ reportedTokens w c.1.id →
      NodeCall.addVlessUser c.1.id c.2.id c.2.uuid ∈ (syncAllUsers w ledger).calls) := by
  have hmapowners := serverSubscriptionsMap_owners ledger howners
  obtain ⟨h1, h2⟩ := syncNodes_counts w n2 (serverSubscriptionsMap ledger)
    { synced := 0, failed := 0, calls := [] } hmapowners hlist hdown hup
  have hfailed : (syncAllUsers w ledger).failed
      = ((syncCandidates ledger).filter (fun c => c.1.id == n2)).length := by
    unfold syncAllUsers
    rw [h2]
    unfold serverSubscriptionsMap
    rw [countOnNodes_fold]
    simp [countOnNodes]
  have hsynced : (syncAllUsers w ledger).synced
      = ((syncCandidates ledger).filter (fun c => c.1.id != n2)).length := by
    unfold syncAllUsers
    rw [h1]
    unfold serverSubscriptionsMap
    rw [countOnNodes_fold]
    simp [countOnNodes]
  refine ⟨hfailed, hsynced, ?_, ?_⟩
  · have hcount : ∀ (map : List (String × List Subscription)) (st : SyncState),
        (map.foldl (syncNode w) st).synced + (map.foldl (syncNode w) st).failed
          = st.synced + st.failed + countOnNodes (fun _ => true) map := by
      intro map
      induction map with
      | nil => simp [countOnNodes]
      | cons entry rest ih =>
        intro st
        rw [List.foldl_cons, ih]
        have e : (syncNode w st entry).synced + (syncNode w st entry).failed
            = st.synced + st.failed + entry.2.length := by
          unfold syncNode
          simp only
          rw [syncSubscriptions_count]
        rw [e]
        simp only [countOnNodes, List.map_cons, List.sum_cons, if_true]
        omega
    have := hcount (serverSubscriptionsMap ledger) { synced := 0, failed := 0, calls := [] }
    unfold syncAllUsers
    rw [this]
    unfold serverSubscriptionsMap
    rw [countOnNodes_fold]
    simp [countOnNodes]
  · intro c hc hn habsent
    obtain ⟨g, hg, hg1, hg2⟩ := (pushSubscriptions_mem (syncCandidates ledger) []).2 c hc
    have hcalls := syncNodes_calls w (serverSubscriptionsMap ledger)
      { synced := 0, failed := 0, calls := [] } hmapowners
    unfold syncAllUsers
    rw [hcalls]
    simp only [List.nil_append]
    refine List.mem_flatMap.2 ⟨g, hg, ?_⟩
    rw [hg1]
    refine List.mem_cons_of_mem _ (List.mem_map.2 ⟨c.2, List.mem_filter.2 ⟨hg2, ?_⟩, rfl⟩)
    exact decide_eq_true habsent

theorem syncAllUsers_isolates_node_witness :
    (syncAllUsers node2Down fleetLedger).failed = 2 ∧
    (syncAllUsers node2Down fleetLedger).synced = 3 ∧
    (syncAllUsers node2Down fleetLedger).synced + (syncAllUsers node2Down fleetLedger).failed
      = (syncCandidates fleetLedger).length ∧
    (∀ c ∈ syncCandidates fleetLedger, c.1.id ≠ "n2" →
      some c.2.uuid ∉ reportedTokens node2Down c.1.id →
      NodeCall.addVlessUser c.1.id c.2.id c.2.uuid
        ∈ (syncAllUsers node2Down fleetLedger).calls) :=
  syncAllUsers_isolates_node node2Down fleetLedger "n2" (by decide) rfl (fun _ => rfl)
    (fun n hn s => by simp [node2Down, SdkReply.fails, hn])

/-! ### Jobs that keep the subscription invariant -/

theorem saveSubscription_invariant (ledger : Ledger) (doc : Subscription)
    (hinv : ∀ s ∈ ledger.subscriptions, s.nodeImpliesActive = true)
    (hdoc : doc.nodeImpliesActive = true) :
    ∀ s ∈ (ledger.saveSubscription doc).subscriptions, s.nodeImpliesActive = true := by
  intro s hs
  simp only [Ledger.saveSubscription, List.mem_map] at hs
  obtain ⟨x, hx, rfl⟩ := hs
  split
  · exact hdoc
  · exact hinv x hx

theorem saveSubscriptionDoc_invariant (w : World) (st : JobState) (doc : Subscription)
    (hinv : ∀ s ∈ st.ledger.subscriptions, s.nodeImpliesActive = true)
    (hdoc : doc.nodeImpliesActive = true) :
    ∀ s ∈ (saveSubscriptionDoc w st doc).ledger.subscriptions, s.nodeImpliesActive = true := by
  unfold saveSubscriptionDoc
  simp only
  split
  · exact saveSubscription_invariant st.ledger doc hinv hdoc
  · exact hinv

theorem findSubscriptionById_mem (ledger : Ledger) (i : String) (d : Subscription)
    (h : ledger.findSubscriptionById i = some d) : d ∈ ledger.subscriptions :=
  List.mem_of_find?_eq_some h

theorem trafficLimitsCheckStep_invariant (w : World) (st : JobState) (sub : Subscription)
    (hinv : ∀ s ∈ st.ledger.subscriptions, s.nodeImpliesActive = true) :
    ∀ s ∈ (trafficLimitsCheckStep w st sub).ledger.subscriptions,
      s.nodeImpliesActive = true := by
  unfold trafficLimitsCheckStep
  cases hpop : populate st.populated sub.currentServer with
  | none => exact hinv
  | some srv =>
    cases hdoc : st.ledger.findSubscriptionById sub.id with
    | none => exact hinv
    | some doc =>
      have hd : doc.nodeImpliesActive = true :=
        hinv doc (findSubscriptionById_mem _ _ _ hdoc)
      dsimp only
      split
      · exact hinv
      · split
        · exact hinv
        · split
          · split
            · exact hinv
            · split
              · exact saveSubscriptionDoc_invariant w _ _ hinv rfl
              · exact hinv
          · exact saveSubscriptionDoc_invariant w _ _ hinv hd

theorem statsSyncStep_invariant (w : World) (st : JobState) (sub : Subscription)
    (hinv : ∀ s ∈ st.ledger.subscriptions, s.nodeImpliesActive = true) :
    ∀ s ∈ (statsSyncStep w st sub).ledger.subscriptions, s.nodeImpliesActive = true := by
  unfold statsSyncStep
  cases hpop : populate st.populated sub.currentServer with
  | none => exact hinv
  | some srv =>
    cases hdoc : st.ledger.findSubscriptionById sub.id with
    | none => exact hinv
    | some doc =>
      have hd : doc.nodeImpliesActive = true :=
        hinv doc (findSubscriptionById_mem _ _ _ hdoc)
      dsimp only
      split
      · exact hinv
      · split
        · exact hinv
        · exact saveSubscriptionDoc_invariant w _ _ hinv hd

theorem expiredSubscriptionsCheckStep_invariant (w : World) (st : JobState)
    (sub : Subscription)
    (hinv : ∀ s ∈ st.ledger.subscriptions, s.nodeImpliesActive = true) :
    ∀ s ∈ (stateOf (expiredSubscriptionsCheckStep w st sub)).ledger.subscriptions,
      s.nodeImpliesActive = true := by
  have hdoc : ({ sub with status := SubscriptionStatus.expired, currentServer := none }
      : Subscription).nodeImpliesActive = true := rfl
  unfold expiredSubscriptionsCheckStep
  cases hpop : populate st.populated sub.currentServer with
  | none =>
    dsimp only
    cases hs : w.subscriptionSaveOk sub.id
    · simpa [stateOf] using hinv
    · cases hu : sub.user <;> simp only [stateOf, if_true] <;>
        exact saveSubscription_invariant st.ledger _ hinv hdoc
  | some srv =>
    cases hu : sub.user with
    | none => simpa [stateOf] using hinv
    | some owner =>
      dsimp only
      cases hr : removeInboundUser (w.removeUser sub.id) <;>
        cases hw : w.serverWriteOk sub.id <;>
        cases hs : w.subscriptionSaveOk sub.id <;>
        simp only [stateOf, if_true, Bool.false_eq_true, if_false] <;>
        first
          | exact hinv
          | exact saveSubscription_invariant st.ledger _ hinv hdoc

/-- The traffic limits check, the statistics resync and the hourly sweep keep "an
assigned node implies status active" for every stored subscription. -/
theorem other_jobs_keep_invariant (w : World) (now : Int) (ledger : Ledger)
    (hinv : ∀ s ∈ ledger.subscriptions, s.nodeImpliesActive = true) :
    (∀ s ∈ (trafficLimitsCheck w ledger).ledger.subscriptions, s.nodeImpliesActive = true) ∧
    (∀ s ∈ (statsSync w ledger).ledger.subscriptions, s.nodeImpliesActive = true) ∧
    (∀ s ∈ (expiredSubscriptionsCheck w now ledger).ledger.subscriptions,
      s.nodeImpliesActive = true) := by
  have hfold : ∀ (step : JobState → Subscription → JobState),
      (∀ st sub, (∀ s ∈ st.ledger.subscriptions, s.nodeImpliesActive = true) →
        ∀ s ∈ (step st sub).ledger.subscriptions, s.nodeImpliesActive = true) →
      ∀ (subs : List Subscription) (st : JobState),
        (∀ s ∈ st.ledger.subscriptions, s.nodeImpliesActive = true) →
        ∀ s ∈ (subs.foldl step st).ledger.subscriptions, s.nodeImpliesActive = true := by
    intro step hstep subs
    induction subs with
    | nil => exact fun st h => h
    | cons x rest ih => exact fun st h => ih (step st x) (hstep st x h)
  have hloop : ∀ (subs : List Subscription) (st : JobState),
      (∀ s ∈ st.ledger.subscriptions, s.nodeImpliesActive = true) →
      ∀ s ∈ (expiredSubscriptionsLoop w subs st).ledger.subscriptions,
        s.nodeImpliesActive = true := by
    intro subs
    induction subs with
    | nil => exact fun st h => h
    | cons x rest ih =>
      intro st h
      have hstep := expiredSubscriptionsCheckStep_invariant w st x h
      simp only [expiredSubscriptionsLoop]
      cases hr : expiredSubscriptionsCheckStep w st x with
      | error st1 =>
        rw [hr] at hstep
        exact hstep
      | ok st1 =>
        rw [hr] at hstep
        exact ih st1 hstep
  refine ⟨?_, ?_, ?_⟩
  · exact hfold _ (trafficLimitsCheckStep_invariant w) _ _ hinv
  · exact hfold _ (statsSyncStep_invariant w) _ _ hinv
  · exact hloop _ _ hinv

/-! ### The node client and the label -/

/-- C21: `getInboundUsers` never raises: as a fallible call it always returns
normally; it returns the empty list when the SDK call rejects or its result is not
ok, and otherwise the data of the result, or the empty list when the data is
missing. -/
theorem getInboundUsers_never_raises (reply : SdkReply InboundData) :
    getInboundUsersOutcome reply = Except.ok (getInboundUsers reply) ∧
    getInboundUsers SdkReply.throws = InboundData.array [] ∧
    (∀ data, getInboundUsers (SdkReply.result false data) = InboundData.array []) ∧
    (∀ users, getInboundUsers (SdkReply.result true (some users)) = users) ∧
    getInboundUsers (SdkReply.result true none) = InboundData.array [] := by
  refine ⟨?_, rfl, fun _ => rfl, fun _ => rfl, rfl⟩
  cases reply with
  | throws => rfl
  | result isOk data =>
    cases isOk <;> rfl

theorem splitAtSign_no_sign (d : List Char) (hd : '@' ∉ d) : splitAtSign d = [d] := by
  induction d with
  | nil => rfl
  | cons c cs ih =>
    have hc : c ≠ '@' := fun h => hd (by simp [h])
    have hcs : '@' ∉ cs := fun h => hd (by simp [h])
    simp [splitAtSign, hc, ih hcs]

theorem splitAtSign_one_sign (l d : List Char) (hl : '@' ∉ l) (hd : '@' ∉ d) :
    splitAtSign (l ++ '@' :: d) = [l, d] := by
  induction l with
  | nil => simp [splitAtSign, splitAtSign_no_sign d hd]
  | cons c cs ih =>
    have hc : c ≠ '@' := fun h => hl (by simp [h])
    have hcs : '@' ∉ cs := fun h => hl (by simp [h])
    simp [splitAtSign, hc, ih hcs]

/-- C26: for an owner whose email is `local@domain` with no other `@`, the label is
`local`, `_`, the first 8 characters of the subscription id, `@`, `domain`; and two
subscriptions with the same owner and the same first 8 characters of their ids get
the same label. -/
theorem getXrayEmail_label (s : Subscription) (owner : User) (l d : String)
    (howner : s.user = some owner) (hemail : owner.email = l ++ "@" ++ d)
    (hl : '@' ∉ l.data) (hd : '@' ∉ d.data) :
    s.getXrayEmail = Except.ok (l ++ "_" ++ s.id.take 8 ++ "@" ++ d) ∧
    (s.id.take 8).data = s.id.data.take 8 ∧
    ∀ s2 : Subscription, s2.user = s.user → s2.id.take 8 = s.id.take 8 →
      s2.getXrayEmail = s.getXrayEmail := by
  refine ⟨?_, String.data_take s.id 8, ?_⟩
  · have hdata : owner.email.data = l.data ++ '@' :: d.data := by
      rw [hemail]
      simp [String.data_append]
    unfold Subscription.getXrayEmail
    rw [howner]
    simp only [hdata, splitAtSign_one_sign l.data d.data hl hd, List.map_cons, List.map_nil]
    rfl
  · intro s2 hu hid
    unfold Subscription.getXrayEmail
    rw [hu, hid]

theorem getXrayEmail_label_witness :
    quotaSub.getXrayEmail = Except.ok ("a" ++ "_" ++ quotaSub.id.take 8 ++ "@" ++ "b.c") :=
  (getXrayEmail_label quotaSub { email := "a@b.c" } "a" "b.c" rfl rfl
    (by decide) (by decide)).1

/-- C27: the period update is not commutative: on the periods `[5]`, observing 3 and
then 7 gives `[5, 7]`, observing 7 and then 3 gives `[7, 3]`. -/
theorem updateTrafficUsed_not_commutative :
    ∃ (p : List Int) (a b : Int),
      updateTrafficUsed (updateTrafficUsed p a) b ≠ updateTrafficUsed (updateTrafficUsed p b) a :=
  ⟨[5], 3, 7, by decide⟩

/-- C28: the period update written in the statistics resync and the one written in
the traffic limits check return the same sequence for every period sequence and
every observation, so an iteration of the resync stores what the period update of
the traffic limits check computes. -/
theorem statsSyncTrafficUsed_eq (p : List Int) (v : Int) :
    statsSyncTrafficUsed p v = updateTrafficUsed p v := by
  unfold statsSyncTrafficUsed updateTrafficUsed
  rfl

/-! ### A removal call that raises -/

theorem trafficLimitsCheckStep_removal_error (w : World) (st : JobState)
    (subscription subscriptionDoc : Subscription) (currentServer : Server) (stats : Stats)
    (hpop : populate st.populated subscription.currentServer = some currentServer)
    (hdoc : st.ledger.findSubscriptionById subscription.id = some subscriptionDoc)
    (huser : subscriptionDoc.user.isNone = false)
    (hstats : queryUserStats (w.getUserStats subscription.id) = Except.ok stats)
    (hlimit : limitReached (updateTrafficUsed subscriptionDoc.trafficUsed stats.total)
      subscriptionDoc.trafficLimit = true)
    (hraise : removeInboundUser (w.removeUser subscription.id) = Except.error ()) :
    trafficLimitsCheckStep w st subscription
      = { st with effects := st.effects ++
            [Effect.queryUserStats currentServer.id subscription.id,
             Effect.removeUser currentServer.id subscription.id] } := by
  simp only [trafficLimitsCheckStep, hpop, hdoc, huser, hstats, hlimit, hraise,
    Bool.false_eq_true, if_false, if_true, List.append_assoc, List.singleton_append]

/-- C29: in an iteration of the traffic limits check that reaches the suspension
branch and whose removal call raises, nothing is written: the ledger (the stored
periods, status and node of the subscription and the `currentUsers` of the node),
the populated node objects and `suspendedCount` are as before the iteration, the
only calls are the statistics query and the removal, and the loop goes on with the
next subscription from that state. -/
theorem removal_failure_writes_nothing (w : World) (st : JobState)
    (subscription subscriptionDoc : Subscription) (currentServer : Server) (stats : Stats)
    (rest : List Subscription)
    (hpop : populate st.populated subscription.currentServer = some currentServer)
    (hdoc : st.ledger.findSubscriptionById subscription.id = some subscriptionDoc)
    (huser : subscriptionDoc.user.isNone = false)
    (hstats : queryUserStats (w.getUserStats subscription.id) = Except.ok stats)
    (hlimit : totalTrafficUsed (updateTrafficUsed subscriptionDoc.trafficUsed stats.total)
      ≥ subscriptionDoc.trafficLimit)
    (hraise : removeInboundUser (w.removeUser subscription.id) = Except.error ()) :
    (trafficLimitsCheckStep w st subscription).ledger = st.ledger ∧
    (trafficLimitsCheckStep w st subscription).populated = st.populated ∧
    (trafficLimitsCheckStep w st subscription).suspendedCount = st.suspendedCount ∧
    (trafficLimitsCheckStep w st subscription).effects
      = st.effects ++ [Effect.queryUserStats currentServer.id subscription.id,
          Effect.removeUser currentServer.id subscription.id] ∧
    (subscription :: rest).foldl (trafficLimitsCheckStep w) st
      = rest.foldl (trafficLimitsCheckStep w)
          { st with effects := st.effects ++
              [Effect.queryUserStats currentServer.id subscription.id,
               Effect.removeUser currentServer.id subscription.id] } := by
  have hl : limitReached (updateTrafficUsed subscriptionDoc.trafficUsed stats.total)
      subscriptionDoc.trafficLimit = true := by
    simpa [limitReached] using hlimit
  have hstep := trafficLimitsCheckStep_removal_error w st subscription subscriptionDoc
    currentServer stats hpop hdoc huser hstats hl hraise
  rw [List.foldl_cons, hstep]
  exact ⟨rfl, rfl, rfl, rfl, rfl⟩

theorem removal_failure_writes_nothing_witness :
    (trafficLimitsCheckStep (removalRaises 1200) (JobState.start quotaLedger) quotaSub).ledger
      = quotaLedger ∧
    (trafficLimitsCheckStep (removalRaises 1200) (JobState.start quotaLedger) quotaSub).effects
      = [Effect.queryUserStats "n1" "s1", Effect.removeUser "n1" "s1"] :=
  ⟨(removal_failure_writes_nothing (removalRaises 1200) (JobState.start quotaLedger) quotaSub
      quotaSub quotaNode { uplink := 1200, downlink := 0, total := 1200 } [] rfl rfl rfl rfl
      (by decide) rfl).1,
   (removal_failure_writes_nothing (removalRaises 1200) (JobState.start quotaLedger) quotaSub
      quotaSub quotaNode { uplink := 1200, downlink := 0, total := 1200 } [] rfl rfl rfl rfl
      (by decide) rfl).2.2.2.1⟩

/-- C22 (as stated, refuted): a removal request answered with a result that is not ok
makes `removeInboundUser` raise, and the traffic limits check does not go on as for
a successful removal: in the quota scenario the subscription stays stored as it was
instead of being suspended. -/
theorem not_found_continues_false :
    ¬ (removeInboundUser (SdkReply.result false none) = Except.ok () ∨
       (trafficLimitsCheckStep (removalNotFound 1200) (JobState.start quotaLedger)
          quotaSub).ledger
        = (trafficLimitsCheckStep (observing 1200) (JobState.start quotaLedger)
          quotaSub).ledger) := by
  rintro (h | h)
  · exact Except.noConfusion h
  · revert h
    decide

/-- C22 (amended): a removal request answered with a result that is not ok makes
`removeInboundUser` raise. In the traffic limits check the `catch` of the iteration
then abandons the suspension: nothing is written and the only calls are the
statistics query and the removal. In the hourly sweep the inner `catch` skips the
load decrement, and the subscription is still saved as expired with no node. -/
theorem removal_not_ok_raises (w : World) (st : JobState)
    (subscription : Subscription) (currentServer : Server) (data : Option Unit)
    (hpop : populate st.populated subscription.currentServer = some currentServer)
    (hreply : w.removeUser subscription.id = SdkReply.result false data) :
    removeInboundUser (w.removeUser subscription.id) = Except.error () ∧
    (∀ (subscriptionDoc : Subscription) (stats : Stats),
      st.ledger.findSubscriptionById subscription.id = some subscriptionDoc →
      subscriptionDoc.user.isNone = false →
      queryUserStats (w.getUserStats subscription.id) = Except.ok stats →
      totalTrafficUsed (updateTrafficUsed subscriptionDoc.trafficUsed stats.total)
        ≥ subscriptionDoc.trafficLimit →
      trafficLimitsCheckStep w st subscription
        = { st with effects := st.effects ++
              [Effect.queryUserStats currentServer.id subscription.id,
               Effect.removeUser currentServer.id subscription.id] }) ∧
    (∀ owner, subscription.user = some owner →
      (stateOf (expiredSubscriptionsCheckStep w st subscription)).effects
        = st.effects ++ [Effect.removeUser currentServer.id subscription.id,
            Effect.subscriptionSave { subscription with
              status := SubscriptionStatus.expired
              currentServer := none }] ∧
      (stateOf (expiredSubscriptionsCheckStep w st subscription)).ledger.servers
        = st.ledger.servers ∧
      (stateOf (expiredSubscriptionsCheckStep w st subscription)).populated
        = st.populated) := by
  have hraise : removeInboundUser (w.removeUser subscription.id) = Except.error () := by
    rw [hreply]
    rfl
  refine ⟨hraise, ?_, ?_⟩
  · intro subscriptionDoc stats hdoc huser hstats hlimit
    have hl : limitReached (updateTrafficUsed subscriptionDoc.trafficUsed stats.total)
        subscriptionDoc.trafficLimit = true := by
      simpa [limitReached] using hlimit
    exact trafficLimitsCheckStep_removal_error w st subscription subscriptionDoc
      currentServer stats hpop hdoc huser hstats hl hraise
  · intro owner howner
    unfold expiredSubscriptionsCheckStep
    simp only [hpop, howner, hraise]
    cases hs : w.subscriptionSaveOk subscription.id <;>
      simp [stateOf, Ledger.saveSubscription]

theorem removal_not_ok_raises_witness :
    removeInboundUser ((removalNotFound 1200).removeUser quotaSub.id) = Except.error () ∧
    trafficLimitsCheckStep (removalNotFound 1200) (JobState.start quotaLedger) quotaSub
      = { JobState.start quotaLedger with effects := (JobState.start quotaLedger).effects ++
            [Effect.queryUserStats quotaNode.id quotaSub.id,
             Effect.removeUser quotaNode.id quotaSub.id] } :=
  ⟨(removal_not_ok_raises (removalNotFound 1200) (JobState.start quotaLedger) quotaSub
      quotaNode none rfl rfl).1,
   (removal_not_ok_raises (removalNotFound 1200) (JobState.start quotaLedger) quotaSub
      quotaNode none rfl rfl).2.1 quotaSub { uplink := 1200, downlink := 0, total := 1200 }
      rfl rfl rfl (by decide)⟩

theorem uuidToEmailGet_of_orphan (entries : List (String × String)) (uuid : Option String)
    (h : uuid ∉ (entries.map (fun entry => entry.1)).map some) :
    uuidToEmailGet entries uuid = none := by
  unfold uuidToEmailGet
  cases uuid with
  | none => rfl
  | some u =>
    have hfind : entries.reverse.find? (fun entry => entry.1 == u) = none := by
      rw [List.find?_eq_none]
      intro x hx hxu
      apply h
      simp only [List.map_map, List.mem_map, Function.comp_apply, Option.some.injEq]
      exact ⟨x, List.mem_reverse.1 hx, by simpa using hxu⟩
    simp [hfind]

/-- C30: with the node found and the owners resolving, the uuid-to-email map of
`cleanupServer` is built, and its keys are the uuids of the active subscriptions of
the node, which are the tokens excluded from removal. So for every token outside
that set the lookup finds nothing and the label is the token itself; the loop body
either skips a token or issues a removal whose label is that token; and the method
either throws after the list call, with no removal issued, or returns after the list
call and one removal for each listed token outside the set, each labelled with the
token itself. -/
theorem cleanupServer_label_is_token (w : NodeWorld) (ledger : Ledger) (serverId : String)
    (server : Server)
    (hfind : ledger.servers.find? (fun s => s.id == serverId) = some server)
    (howners : ∀ s ∈ ledger.subscriptions, s.user ≠ none) :
    ∃ entries, uuidToEmailEntries (dbSubscriptions ledger serverId) = Except.ok entries ∧
      entries.map (fun entry => entry.1) = activeUUIDs ledger serverId ∧
      (∀ u, u ∉ (activeUUIDs ledger serverId).map some →
        uuidToEmailGet entries u = none ∧ removalEmail entries u = u) ∧
      (∀ st u,
        (u ∈ (activeUUIDs ledger serverId).map some ∧
          cleanupStep w server.id (activeUUIDs ledger serverId) entries st u = st) ∨
        (u ∉ (activeUUIDs ledger serverId).map some ∧ uuidToEmailGet entries u = none ∧
          (cleanupStep w server.id (activeUUIDs ledger serverId) entries st u).calls
            = st.calls ++ [NodeCall.removeInboundUser server.id u])) ∧
      (cleanupServer w ledger serverId = Except.error [NodeCall.getInboundUsers server.id] ∨
        ∃ r tokens, cleanupServer w ledger serverId = Except.ok r ∧
          xrayUUIDs (getInboundUsers (w.getInboundUsers server.id)) = Except.ok tokens ∧
          r.calls = NodeCall.getInboundUsers server.id ::
            (tokens.filter (fun u =>
              decide (u ∉ (activeUUIDs ledger serverId).map some))).map
              (fun u => NodeCall.removeInboundUser server.id u) ∧
          ∀ email, NodeCall.removeInboundUser server.id email ∈ r.calls →
            email ∈ tokens ∧ email ∉ (activeUUIDs ledger serverId).map some ∧
            uuidToEmailGet entries email = none) := by
  obtain ⟨entries, he, hkeys⟩ := dbSubscriptions_owners ledger serverId howners
  have horphan : ∀ u, u ∉ (activeUUIDs ledger serverId).map some →
      uuidToEmailGet entries u = none ∧ removalEmail entries u = u := by
    intro u hu
    exact ⟨uuidToEmailGet_of_orphan entries u (by rw [hkeys]; exact hu),
      removalEmail_of_orphan entries u (by rw [hkeys]; exact hu)⟩
  refine ⟨entries, he, hkeys, horphan, ?_, ?_⟩
  · intro st u
    by_cases hu : u ∈ (activeUUIDs ledger serverId).map some
    · left
      refine ⟨hu, ?_⟩
      unfold cleanupStep
      rw [if_pos hu]
    · right
      refine ⟨hu, (horphan u hu).1, ?_⟩
      unfold cleanupStep
      rw [if_neg hu]
      simp only [(horphan u hu).2]
      cases removeInboundUser (w.removeUser server.id u) <;> rfl
  · cases hreply : getInboundUsers (w.getInboundUsers server.id) with
    | object users =>
      exact Or.inl (cleanupServer_of_object w ledger serverId server users hfind hreply)
    | array users =>
      refine Or.inr ⟨_, users.map InboundUser.token,
        cleanupServer_of_array w ledger serverId server users hfind howners hreply,
        rfl, rfl, ?_⟩
      intro email hmem
      rcases List.mem_cons.1 hmem with h | h
      · exact NodeCall.noConfusion h
      · obtain ⟨u, hu, hu3⟩ := List.mem_map.1 h
        rw [List.mem_filter] at hu
        have hu2 := of_decide_eq_true hu.2
        have e : u = email := by
          injection hu3
        subst e
        exact ⟨hu.1, hu2, (horphan u hu2).1⟩

theorem cleanupServer_label_is_token_witness :
    ∃ entries, uuidToEmailEntries (dbSubscriptions fleetLedger "n1") = Except.ok entries ∧
      entries.map (fun entry => entry.1) = activeUUIDs fleetLedger "n1" ∧
      uuidToEmailGet entries (some "ux") = none ∧
      removalEmail entries (some "ux") = some "ux" ∧
      (cleanupStep reportsOrphan "n1" (activeUUIDs fleetLedger "n1") entries
          { removed := 0, calls := [] } (some "ux")).calls
        = [NodeCall.removeInboundUser "n1" (some "ux")] := by
  obtain ⟨entries, h1, h2, h3, h4, _⟩ :=
    cleanupServer_label_is_token reportsOrphan fleetLedger "n1" (fleetNode "n1") rfl (by decide)
  have hux : some "ux" ∉ (activeUUIDs fleetLedger "n1").map some := by decide
  refine ⟨entries, h1, h2, (h3 _ hux).1, (h3 _ hux).2, ?_⟩
  rcases h4 { removed := 0, calls := [] } (some "ux") with h | h
  · exact absurd h.1 hux
  · exact h.2.2

/-! ### The health check -/

/-- C23 (failing input): the health check at time 100 over an active node and an
offline node whose list calls are both rejected stores both nodes with status active
and counts both as healthy: the `catch` branch that marks a node offline is not
entered, because `getInboundUsers` never raises. -/
theorem healthCheck_unreachable_marked_active :
    healthCheck probeFails 100
        [nodeWithStatus "n1" ServerStatus.active, nodeWithStatus "n2" ServerStatus.offline]
      = { servers :=
            [{ nodeWithStatus "n1" ServerStatus.active with lastChecked := some 100 },
             { nodeWithStatus "n2" ServerStatus.active with lastChecked := some 100 }]
          healthyCount := 2
          unhealthyCount := 0 } := by
  decide

/-- C24 (as stated, refuted): when the probe succeeds, the health check changes the
status of a node in maintenance and of an inactive node to active. -/
theorem healthCheck_keeps_maintenance_false :
    ¬ (∀ w : HealthWorld, ∀ s ∈ (healthCheck w 100
          [nodeWithStatus "n3" ServerStatus.maintenance,
           nodeWithStatus "n4" ServerStatus.inactive]).servers,
        s.status = ServerStatus.maintenance ∨ s.status = ServerStatus.inactive) := by
  intro h
  have h1 := h probeSucceeds
  revert h1
  decide

/-- C24 (amended): whatever the status of the node, an iteration of the health check
whose probe succeeds and whose save succeeds stores the node with status active and
`lastChecked` set to the run time, and counts it as healthy; so a node in
maintenance or inactive becomes active. -/
theorem healthCheckStep_sets_active (w : HealthWorld) (now : Int) (st : HealthState)
    (server : Server) (hprobe : (w.getInboundUsers server.id).fails = false)
    (hsave : w.saveOk server.id = true) :
    healthCheckStep w now st server
      = Except.ok
          { servers := saveServer st.servers { server with
              status := ServerStatus.active
              lastChecked := some now }
            healthyCount := st.healthyCount + 1
            unhealthyCount := st.unhealthyCount } := by
  have hu : getInboundUsersOutcome (w.getInboundUsers server.id)
      = Except.ok (getInboundUsers (w.getInboundUsers server.id)) := by
    cases hr : w.getInboundUsers server.id with
    | throws =>
      rw [hr] at hprobe
      exact Bool.noConfusion hprobe
    | result isOk data => cases isOk <;> rfl
  unfold healthCheckStep
  rw [hu]
  by_cases hs : server.status = ServerStatus.active
  · have e : ({ server with status := ServerStatus.active } : Server) = server := by
      cases server
      simp only at hs
      simp [hs]
    simp [hs, hsave, e]
  · simp [hs, hsave]

theorem healthCheckStep_sets_active_witness :
    healthCheckStep probeSucceeds 100
        { servers := [nodeWithStatus "n3" ServerStatus.maintenance], healthyCount := 0,
          unhealthyCount := 0 }
        (nodeWithStatus "n3" ServerStatus.maintenance)
      = Except.ok
          { servers := saveServer [nodeWithStatus "n3" ServerStatus.maintenance]
              { nodeWithStatus "n3" ServerStatus.maintenance with
                status := ServerStatus.active
                lastChecked := some 100 }
            healthyCount := 0 + 1
            unhealthyCount := 0 } :=
  healthCheckStep_sets_active probeSucceeds 100
    { servers := [nodeWithStatus "n3" ServerStatus.maintenance], healthyCount := 0,
      unhealthyCount := 0 }
    (nodeWithStatus "n3" ServerStatus.maintenance) rfl rfl

/-! ### The cooldown -/

/-- C25 (as stated, refuted): on a host whose time zone moved its clock forward
during the last day, `oneDayAgo` lies 23 hours before the current time, and a
`lastServerChange` 23.5 hours old, within the last 24 hours, gives true. -/
theorem canChangeServer_24_hours_false :
    ¬ (∀ (tz : TimeZone) (now : Int) (s : Subscription),
        s.canChangeServer tz now = true ↔
          (s.lastServerChange = none ∨
            ∃ t, s.lastServerChange = some t ∧ t < now - 86400000)) := by
  intro h
  have h1 := (h springForward 43200000
    { quotaSub with lastServerChange := some (43200000 - 84600000) }).1 (by decide)
  revert h1
  simp

/-- C25 (amended): `canChangeServer` returns true exactly when `lastServerChange` is
unset or lies strictly before `oneDayAgo`, the instant with the same local clock time
on the previous calendar day. That instant is the current time minus 24 hours plus
the difference of the UTC offsets at the two instants; when the offsets are equal it
is exactly 24 hours before the current time, and then a `lastServerChange` within
the last 24 hours gives false. -/
theorem canChangeServer_iff (tz : TimeZone) (now : Int) (s : Subscription) :
    (s.canChangeServer tz now = true ↔
      (s.lastServerChange = none ∨
        ∃ t, s.lastServerChange = some t ∧ t < oneDayAgo tz now)) ∧
    oneDayAgo tz now
      = now - 86400000
        + (tz.offsetAt now - tz.offsetAtLocal (now + tz.offsetAt now - 86400000)) ∧
    (tz.offsetAtLocal (now + tz.offsetAt now - 86400000) = tz.offsetAt now →
      (s.canChangeServer tz now = true ↔
        (s.lastServerChange = none ∨
          ∃ t, s.lastServerChange = some t ∧ t < now - 86400000)) ∧
      ∀ t, s.lastServerChange = some t → now - 86400000 ≤ t →
        s.canChangeServer tz now = false) := by
  have hone : oneDayAgo tz now
      = now - 86400000
        + (tz.offsetAt now - tz.offsetAtLocal (now + tz.offsetAt now - 86400000)) := by
    unfold oneDayAgo
    simp only
    omega
  have hiff : s.canChangeServer tz now = true ↔
      (s.lastServerChange = none ∨
        ∃ t, s.lastServerChange = some t ∧ t < oneDayAgo tz now) := by
    unfold Subscription.canChangeServer
    cases s.lastServerChange with
    | none => simp
    | some t => simp
  refine ⟨hiff, hone, ?_⟩
  intro hoff
  have h24 : oneDayAgo tz now = now - 86400000 := by
    rw [hone, hoff]
    omega
  rw [h24] at hiff
  refine ⟨hiff, ?_⟩
  intro t ht hle
  cases hc : s.canChangeServer tz now
  · rfl
  · rcases hiff.1 hc with h | ⟨t2, h2, h3⟩
    · rw [ht] at h
      exact Option.noConfusion h
    · rw [ht] at h2
      injection h2 with h2
      omega

theorem canChangeServer_iff_witness :
    ({ quotaSub with lastServerChange := some 50000000 } : Subscription).canChangeServer
      utcZone 100000000 = false :=
  ((canChangeServer_iff utcZone 100000000
    { quotaSub with lastServerChange := some 50000000 }).2.2 rfl).2 50000000 rfl (by decide)

end Homt
